import Mathlib

/-!
Graceful eviction controller of karmada: a verification development.

Shallow embedding of
`pkg/controllers/gracefuleviction/rb_graceful_eviction_controller.go`
(`Reconcile`, `syncBinding`, the event predicate of `SetupWithManager`),
together with the eviction assessor and the retry scheduler that the
controller calls.

Conventions.
* Instants and durations are integers counted in nanoseconds; an instant is
  counted from Go's zero `time.Time`, so `IsZero` is equality with `0`.
* A Go slice is `Option (List α)`: `none` is the nil slice, `some []` the
  empty slice that is not nil.
* Store, clock, assessor and scheduler are explicit arguments of the controller,
  and every call the controller makes is appended to a trace.
-/

set_option autoImplicit false

namespace GracefulEviction

/-! ## Go slices -/

/-- A Go slice value: `none` is nil, `some l` is a non-nil slice with elements `l`. -/
abbrev GoSlice (α : Type) := Option (List α)

/-- Go's builtin `len` on a slice. -/
def GoSlice.len {α : Type} (s : GoSlice α) : Nat :=
  match s with
  | none => 0
  | some l => l.length

/-- The elements of a slice, in order (nil has none). -/
def GoSlice.toList {α : Type} (s : GoSlice α) : List α :=
  match s with
  | none => []
  | some l => l

/-- Go's `reflect.DeepEqual` on two slices of the same type: both nil, or both non-nil
with the same length and pairwise deeply equal elements.  A nil slice and an empty
non-nil slice are not deeply equal. -/
def DeepEqual {α : Type} [DecidableEq α] (a b : GoSlice α) : Bool :=
  match a, b with
  | none, none => true
  | some x, some y => decide (x = y)
  | _, _ => false

/-- Order-sensitive value equality of two sequences: same elements in the same order. -/
def valueEqual {α : Type} [DecidableEq α] (a b : GoSlice α) : Bool :=
  decide (a.toList = b.toList)

/-! ## Data model -/

/-- Modelled from the spec: the type `GracefulEvictionTask` (package `work/v1alpha2`,
not among the sources).  Spec section 6 gives its shape as
`{clusterName, createdAt, gracePeriod?, reason?}`; `createdAt = none` is the
"missing creation timestamp" of spec section 7. -/
structure EvictionTask where
  clusterName : String
  createdAt : Option Int
  gracePeriod : Option Int
  reason : Option String
  deriving DecidableEq, Repr

/-- Modelled from the spec: the type `AggregatedStatusItem` (package `work/v1alpha2`,
not among the sources).  Spec section 6: `{clusterName, healthy/applied indicator, …}`. -/
structure AggregatedStatusItem where
  clusterName : String
  healthy : Bool
  deriving DecidableEq, Repr

/-- The part of `metav1.ObjectMeta` the controller can observe. -/
structure ObjectMeta where
  Name : String
  Namespace : String
  Generation : Int
  ResourceVersion : String
  DeletionTimestamp : Option Int
  Labels : List (String × String)
  deriving DecidableEq, Repr

/-- Modelled from the spec: `ResourceBindingSpec` (not among the sources).  The task
sequence is a Go slice; `Other` stands for every remaining field of the spec. -/
structure ResourceBindingSpec where
  GracefulEvictionTasks : GoSlice EvictionTask
  Other : List (String × String)
  deriving DecidableEq, Repr

/-- Modelled from the spec: `ResourceBindingStatus` (not among the sources). -/
structure ResourceBindingStatus where
  SchedulerObservedGeneration : Int
  AggregatedStatus : List AggregatedStatusItem
  Other : List (String × String)
  deriving DecidableEq, Repr

/-- The object `workv1alpha2.ResourceBinding`. -/
structure ResourceBinding where
  Meta : ObjectMeta
  Spec : ResourceBindingSpec
  Status : ResourceBindingStatus
  deriving DecidableEq, Repr

/-- Go `DeepCopy` of a binding: a value with equal fields that shares no memory with the
original. -/
def ResourceBinding.DeepCopy (b : ResourceBinding) : ResourceBinding := b

/-- Go `(*metav1.Time).IsZero`: a nil pointer is zero, otherwise the instant is Go's zero
time. -/
def IsZero (t : Option Int) : Bool :=
  match t with
  | none => true
  | some v => v == 0

/-! ## Store client -/

/-- The errors a store call can return. -/
inductive APIError where
  | notFound
  | conflict
  | other (msg : String)
  deriving DecidableEq, Repr

/-- Go `apierrors.IsNotFound`. -/
def IsNotFound (e : APIError) : Bool :=
  match e with
  | .notFound => true
  | _ => false

/-- Go `controllerruntime.Request`: the namespaced name of the binding. -/
structure Request where
  Namespace : String
  Name : String
  deriving DecidableEq, Repr

/-- Go `controllerruntime.Result`; the zero value is the empty result. -/
structure Result where
  Requeue : Bool := false
  RequeueAfter : Int := 0
  deriving DecidableEq, Repr

/-- Options of a merge-from patch (`client.MergeFromOptions`). -/
structure MergeFromOptions where
  OptimisticLock : Bool
  deriving DecidableEq, Repr

/-- A merge-from patch of controller-runtime: the object it was taken from and its
options. -/
structure MergeFromPatch where
  base : ResourceBinding
  opts : MergeFromOptions
  deriving DecidableEq, Repr

/-- Go `client.MergeFrom(obj)`: a merge patch against `obj` with no option set. -/
def MergeFrom (obj : ResourceBinding) : MergeFromPatch :=
  { base := obj, opts := { OptimisticLock := false } }

/-- Go `client.MergeFromWithOptions(obj, client.MergeFromWithOptimisticLock{})`: the
variant the controller does not use. -/
def MergeFromWithOptimisticLock (obj : ResourceBinding) : MergeFromPatch :=
  { base := obj, opts := { OptimisticLock := true } }

/-- One call `Client.Patch(ctx, obj, patch)`. -/
structure PatchCall where
  obj : ResourceBinding
  patch : MergeFromPatch
  deriving DecidableEq, Repr

/-- The task field as `json.Marshal` writes it.  The field carries the tag
`gracefulEvictionTasks,omitempty`, so a nil slice and an empty slice are both left out of
the document (`none`); a slice with elements is written as the array of its elements. -/
def marshalTasks (s : GoSlice EvictionTask) : GoSlice EvictionTask :=
  match s with
  | none => none
  | some [] => none
  | some (t :: ts) => some (t :: ts)

/-- The body of the request a patch call sends (`mergeFromPatch.Data`), a JSON merge
patch.  `resourceVersion` is the version precondition, present only under the optimistic
lock.  `gracefulEvictionTasks` is the entry of the task field: `none` when the body has
no such entry, `some none` for the entry `null` (remove the field), `some (some l)` for
the array `l`.  Entries for other fields are not modelled: the patches of `syncBinding`
have none, their object and base agree on every other field. -/
structure PatchData where
  resourceVersion : Option String
  gracefulEvictionTasks : Option (GoSlice EvictionTask)
  deriving DecidableEq, Repr

/-- Go `mergeFromPatch.Data`: the merge patch between the marshalled base and the
marshalled object.  With the optimistic lock the base's resource version is written into
the patch; without it the resource version never enters the patch.  The task field enters
the patch only when the two marshalled documents differ in it: as `null` when the object
leaves the field out, as the object's array otherwise. -/
def PatchCall.data (p : PatchCall) : PatchData :=
  { resourceVersion :=
      if p.patch.opts.OptimisticLock then some p.patch.base.Meta.ResourceVersion else none
    gracefulEvictionTasks :=
      if marshalTasks p.obj.Spec.GracefulEvictionTasks =
          marshalTasks p.patch.base.Spec.GracefulEvictionTasks then none
      else some (marshalTasks p.obj.Spec.GracefulEvictionTasks) }

/-- The task field of the stored object after a merge patch: unchanged when the body has
no entry for it, removed (read back as nil) for `null`, else the array of the body. -/
def mergeTasks (stored : GoSlice EvictionTask) (entry : Option (GoSlice EvictionTask)) :
    GoSlice EvictionTask :=
  match entry with
  | none => stored
  | some none => none
  | some (some l) => some l

/-- The store writing a new task sequence into the object it holds.  When nothing
changes nothing is written; otherwise the object gets the resource version the store
assigns to the write, and its generation goes up by one, as for every change of the
spec. -/
def writeTasks (stored : ResourceBinding) (newVersion : String)
    (tasks : GoSlice EvictionTask) : ResourceBinding :=
  if tasks = stored.Spec.GracefulEvictionTasks then stored
  else
    { Meta := { stored.Meta with
        ResourceVersion := newVersion, Generation := stored.Meta.Generation + 1 },
      Spec := { stored.Spec with GracefulEvictionTasks := tasks },
      Status := stored.Status }

/-- The store applying a patch body to the object it holds, `newVersion` being the
resource version it assigns if it writes: a version precondition that does not match is
answered with Conflict, anything else is merged. -/
def applyPatch (stored : ResourceBinding) (newVersion : String) (d : PatchData) :
    Except APIError ResourceBinding :=
  match d.resourceVersion with
  | some rv =>
    if rv = stored.Meta.ResourceVersion then
      .ok (writeTasks stored newVersion
        (mergeTasks stored.Spec.GracefulEvictionTasks d.gracefulEvictionTasks))
    else .error .conflict
  | none =>
    .ok (writeTasks stored newVersion
      (mergeTasks stored.Spec.GracefulEvictionTasks d.gracefulEvictionTasks))

/-! ## Trace of calls -/

/-- The calls a reconcile cycle makes to its collaborators. -/
inductive Call where
  | get (req : Request)
  | clock (reading : Nat) (value : Int)
  | assess (tasks : GoSlice EvictionTask) (status : List AggregatedStatusItem)
      (timeout : Int) (now : Int)
  | nextRetry (tasks : GoSlice EvictionTask) (timeout : Int) (now : Int)
  | patch (p : PatchCall)
  deriving DecidableEq, Repr

/-- What a cycle has done so far: how often the clock was read, and the calls made. -/
structure World where
  clockReads : Nat
  calls : List Call
  deriving DecidableEq, Repr

/-- The world before a cycle starts. -/
def World.init : World := { clockReads := 0, calls := [] }

/-- The patch calls recorded in a trace. -/
def patchesOf (calls : List Call) : List PatchCall :=
  calls.filterMap fun c =>
    match c with
    | .patch p => some p
    | _ => none

/-- Whether the assessor was called in a trace. -/
def assessed (calls : List Call) : Bool :=
  calls.any fun c =>
    match c with
    | .assess _ _ _ _ => true
    | _ => false

/-! ## Controller -/

/-- Go `RBGracefulEvictionController` with its collaborators: the store client, the
clock behind `metav1.Now()` (reading `k` returns `Now k`), and the two functions of the
package that are not among the sources, `assessEvictionTasks` and `nextRetry`. -/
structure Controller where
  Get : Request → Except APIError ResourceBinding
  Patch : PatchCall → Option APIError
  GracefulEvictionTimeout : Int
  Now : Nat → Int
  assessEvictionTasks :
    ResourceBindingSpec → List AggregatedStatusItem → Int → Int → GoSlice EvictionTask
  nextRetry : GoSlice EvictionTask → Int → Int → Int

/-- Reading the clock once (`metav1.Now()`). -/
def readClock (c : Controller) (w : World) : Int × World :=
  (c.Now w.clockReads,
   { clockReads := w.clockReads + 1,
     calls := w.calls ++ [Call.clock w.clockReads (c.Now w.clockReads)] })

/-- Appending one call to the trace. -/
def World.record (w : World) (call : Call) : World :=
  { w with calls := w.calls ++ [call] }

/-- Go `RBGracefulEvictionController.syncBinding`: returns the retry duration and the
error. -/
def syncBinding (c : Controller) (binding : ResourceBinding) (w : World) :
    (Int × Option APIError) × World :=
  let (now1, w1) := readClock c w
  let keptTask := c.assessEvictionTasks binding.Spec binding.Status.AggregatedStatus
    c.GracefulEvictionTimeout now1
  let w2 := w1.record (Call.assess binding.Spec.GracefulEvictionTasks
    binding.Status.AggregatedStatus c.GracefulEvictionTimeout now1)
  if DeepEqual binding.Spec.GracefulEvictionTasks keptTask then
    let (now2, w3) := readClock c w2
    ((c.nextRetry keptTask c.GracefulEvictionTimeout now2, none),
     w3.record (Call.nextRetry keptTask c.GracefulEvictionTimeout now2))
  else
    let objPatch := MergeFrom binding
    let modifiedObj := binding.DeepCopy
    let modifiedObj := { modifiedObj with
      Spec := { modifiedObj.Spec with GracefulEvictionTasks := keptTask } }
    let w3 := w2.record (Call.patch { obj := modifiedObj, patch := objPatch })
    match c.Patch { obj := modifiedObj, patch := objPatch } with
    | some err => ((0, some err), w3)
    | none =>
      let (now2, w4) := readClock c w3
      ((c.nextRetry keptTask c.GracefulEvictionTimeout now2, none),
       w4.record (Call.nextRetry keptTask c.GracefulEvictionTimeout now2))

/-- Go `RBGracefulEvictionController.Reconcile`. -/
def Reconcile (c : Controller) (req : Request) (w : World) :
    (Result × Option APIError) × World :=
  let w0 := w.record (Call.get req)
  match c.Get req with
  | .error err =>
    if IsNotFound err then (({}, none), w0)
    else (({ Requeue := true }, some err), w0)
  | .ok binding =>
    if !IsZero binding.Meta.DeletionTimestamp then (({}, none), w0)
    else
      match syncBinding c binding w0 with
      | ((_, some err), w1) => (({ Requeue := true }, some err), w1)
      | ((retryDuration, none), w1) =>
        if retryDuration > 0 then (({ RequeueAfter := retryDuration }, none), w1)
        else (({}, none), w1)

/-! ## Event filter -/

/-- Go `event.UpdateEvent`. -/
structure UpdateEvent where
  ObjectOld : ResourceBinding
  ObjectNew : ResourceBinding
  deriving DecidableEq, Repr

/-- The `CreateFunc` of `resourceBindingPredicateFn`. -/
def CreateFunc (_createEvent : ResourceBinding) : Bool := false

/-- The `UpdateFunc` of `resourceBindingPredicateFn`. -/
def UpdateFunc (updateEvent : UpdateEvent) : Bool :=
  let newObj := updateEvent.ObjectNew
  if newObj.Spec.GracefulEvictionTasks.len == 0 then false
  else newObj.Status.SchedulerObservedGeneration == newObj.Meta.Generation

/-- The `DeleteFunc` of `resourceBindingPredicateFn`. -/
def DeleteFunc (_deleteEvent : ResourceBinding) : Bool := false

/-- The `GenericFunc` of `resourceBindingPredicateFn`. -/
def GenericFunc (_genericEvent : ResourceBinding) : Bool := false

/-- A change notification of the watch. -/
inductive Event where
  | create (obj : ResourceBinding)
  | update (e : UpdateEvent)
  | delete (obj : ResourceBinding)
  | generic (obj : ResourceBinding)
  deriving DecidableEq, Repr

/-- The predicate `predicate.Funcs` built in `SetupWithManager`: each kind of event is
decided by its own function; an admitted event enqueues a reconcile. -/
def resourceBindingPredicateFn (e : Event) : Bool :=
  match e with
  | .create obj => CreateFunc obj
  | .update u => UpdateFunc u
  | .delete obj => DeleteFunc obj
  | .generic obj => GenericFunc obj

/-! ## Assessor and scheduler -/

/-- Modelled from the spec: the grace a task is given (section 3, Deadline), its own
grace period if set, else the global timeout. -/
def effectiveGrace (t : EvictionTask) (timeout : Int) : Int :=
  t.gracePeriod.getD timeout

/-- Modelled from the spec: the deadline of a task (sections 3 and 4.1),
`createdAt + effectiveGrace`; a task without creation timestamp counts as expired,
`deadline = now` (section 7, MalformedTask). -/
def deadline (t : EvictionTask) (timeout now : Int) : Int :=
  match t.createdAt with
  | some created => created + effectiveGrace t timeout
  | none => now

/-- Modelled from the spec: the task's cluster has a healthy status entry. -/
def hasHealthyEntry (status : List AggregatedStatusItem) (cluster : String) : Bool :=
  status.any fun e => e.clusterName == cluster && e.healthy

/-- Modelled from the spec: some other cluster reports healthy status. -/
def otherClusterHealthy (status : List AggregatedStatusItem) (cluster : String) : Bool :=
  status.any fun e => e.clusterName != cluster && e.healthy

/-- Modelled from the spec: the migration-confirmed fast path (section 4.1, b), no healthy
entry for the task's cluster and at least one other cluster healthy. -/
def migrationConfirmed (t : EvictionTask) (status : List AggregatedStatusItem) : Bool :=
  !hasHealthyEntry status t.clusterName && otherClusterHealthy status t.clusterName

/-- Modelled from the spec: the per-task decision of section 4.1, drop when the deadline
has been reached or the migration is confirmed. -/
def shouldDrop (t : EvictionTask) (status : List AggregatedStatusItem)
    (timeout now : Int) : Bool :=
  decide (now ≥ deadline t timeout now) || migrationConfirmed t status

/-- Modelled from the spec: `u` was created strictly before `t`.  A missing timestamp is
Go's zero time, before every other instant. -/
def createdBefore (u t : EvictionTask) : Bool :=
  match u.createdAt, t.createdAt with
  | some a, some b => decide (a < b)
  | none, some _ => true
  | _, _ => false

/-- Modelled from the spec: duplicate tasks for one cluster are collapsed, keeping only
the earliest-created one (the first of them on a tie), and the tasks retained keep their
relative order (section 4.1). -/
def collapseDuplicates : List EvictionTask → List EvictionTask
  | [] => []
  | t :: rest =>
    if (collapseDuplicates rest).any
        (fun u => u.clusterName == t.clusterName && createdBefore u t) then
      collapseDuplicates rest
    else
      t :: (collapseDuplicates rest).filter (fun u => u.clusterName != t.clusterName)

/-- Modelled from the spec: `assess(tasks, statusByCluster, globalTimeout, now)` of
section 4.1, which is the function `assessEvictionTasks` of the package, not among the
sources.  Each task is decided on its own, then duplicates among the kept tasks are
collapsed. -/
def assess (tasks : List EvictionTask) (status : List AggregatedStatusItem)
    (timeout now : Int) : List EvictionTask :=
  collapseDuplicates (tasks.filter fun t => !shouldDrop t status timeout now)

/-- Modelled from the spec: `assessEvictionTasks` with the signature of its call in
`syncBinding`.  The kept tasks are accumulated by appending to a nil slice, so that
nothing kept is the nil slice. -/
def assessEvictionTasks (spec : ResourceBindingSpec) (status : List AggregatedStatusItem)
    (timeout now : Int) : GoSlice EvictionTask :=
  match assess spec.GracefulEvictionTasks.toList status timeout now with
  | [] => none
  | t :: ts => some (t :: ts)

/-- The least of the remaining times `deadline - now` of a non-empty task sequence. -/
def minRemaining (t : EvictionTask) (ts : List EvictionTask) (timeout now : Int) : Int :=
  ts.foldl (fun m u => min m (deadline u timeout now - now)) (deadline t timeout now - now)

/-- Modelled from the spec: `nextDelay(keptTasks, globalTimeout, now)` of section 4.2,
`none` for no kept task, else the least remaining time, replaced by the positive
`epsilon` when it is not positive. -/
def nextDelay (epsilon : Int) (kept : List EvictionTask) (timeout now : Int) : Option Int :=
  match kept with
  | [] => none
  | t :: ts =>
    if minRemaining t ts timeout now ≤ 0 then some epsilon
    else some (minRemaining t ts timeout now)

/-- Modelled from the spec: `nextRetry` with the signature of its call in `syncBinding`,
not among the sources.  It returns a `time.Duration`, in which `none` is zero. -/
def nextRetry (epsilon : Int) (tasks : GoSlice EvictionTask) (timeout now : Int) : Int :=
  (nextDelay epsilon tasks.toList timeout now).getD 0

/-- The controller of the package: the given store client and clock, with the assessor
and the scheduler above. -/
def controller (get : Request → Except APIError ResourceBinding)
    (patch : PatchCall → Option APIError) (timeout : Int) (clock : Nat → Int)
    (epsilon : Int) : Controller :=
  { Get := get, Patch := patch, GracefulEvictionTimeout := timeout, Now := clock,
    assessEvictionTasks := assessEvictionTasks, nextRetry := nextRetry epsilon }

/-- The patch calls a step has issued: those of the trace after it, without those that
were already in the trace before it. -/
def issuedBy (before after : List Call) : List PatchCall :=
  (patchesOf after).drop (patchesOf before).length

/-- The calls a step has made: the trace after it, without the trace before it. -/
def callsSince (before after : List Call) : List Call :=
  after.drop before.length

/-- The calls of `nextRetry` recorded in a trace, each with the task sequence, the
timeout and the instant it was given. -/
def retryCalls (calls : List Call) : List (GoSlice EvictionTask × Int × Int) :=
  calls.filterMap fun c =>
    match c with
    | .nextRetry tasks timeout now => some (tasks, timeout, now)
    | _ => none

/-- The instants passed to the assessor in a trace. -/
def assessInstants (calls : List Call) : List Int :=
  calls.filterMap fun c =>
    match c with
    | .assess _ _ _ now => some now
    | _ => none

/-- The instants passed to `nextRetry` in a trace. -/
def retryInstants (calls : List Call) : List Int :=
  (retryCalls calls).map fun r => r.2.2

/-- The calls of a trace that go to the store: the reads (Get) and the writes
(Patch).  The controller has no other call to the store. -/
def storeCalls (calls : List Call) : List Call :=
  calls.filter fun c =>
    match c with
    | .get _ => true
    | .patch _ => true
    | _ => false

/-- The task sequence the assessor returns in a cycle of `syncBinding` that starts in
world `w`: the value of `keptTask`. -/
def keptOf (c : Controller) (binding : ResourceBinding) (w : World) : GoSlice EvictionTask :=
  c.assessEvictionTasks binding.Spec binding.Status.AggregatedStatus
    c.GracefulEvictionTimeout (c.Now w.clockReads)

/-- The patch call of `syncBinding` on its changed path: `modifiedObj` and `objPatch`. -/
def patchOf (c : Controller) (binding : ResourceBinding) (w : World) : PatchCall :=
  { obj := { binding with
      Spec := { binding.Spec with GracefulEvictionTasks := keptOf c binding w } },
    patch := MergeFrom binding }

/-! ## Test data -/

/-- A task for cluster `m1` created at instant 100, with no grace period of its own. -/
def taskM1 : EvictionTask :=
  { clusterName := "m1", createdAt := some 100, gracePeriod := none, reason := none }

/-- A task for cluster `m1` created at instant 0: at instant 130 and timeout 120 its
deadline has passed. -/
def taskExpired : EvictionTask :=
  { clusterName := "m1", createdAt := some 0, gracePeriod := none, reason := none }

/-- A task for cluster `m2` created at instant 100. -/
def taskM2 : EvictionTask :=
  { clusterName := "m2", createdAt := some 100, gracePeriod := none, reason := none }

/-- A task for cluster `m1` created at instant 100 with a grace period of 600 of its
own. -/
def taskLongGrace : EvictionTask :=
  { clusterName := "m1", createdAt := some 100, gracePeriod := some 600, reason := none }

/-- A binding at generation 1, resource version "1", with the given task sequence. -/
def bindingWith (tasks : GoSlice EvictionTask) : ResourceBinding :=
  { Meta := { Name := "nginx", Namespace := "default", Generation := 1,
              ResourceVersion := "1", DeletionTimestamp := none, Labels := [] },
    Spec := { GracefulEvictionTasks := tasks, Other := [] },
    Status := { SchedulerObservedGeneration := 1, AggregatedStatus := [], Other := [] } }

/-- The request for the binding of `bindingWith`. -/
def requestNginx : Request := { Namespace := "default", Name := "nginx" }

/-- The binding of `bindingWith` as a later writer has left it in the store, at resource
version "2". -/
def storedLater (tasks : GoSlice EvictionTask) : ResourceBinding :=
  { bindingWith tasks with
    Meta := { (bindingWith tasks).Meta with ResourceVersion := "2" } }

/-- The object the store holds after it has removed the task field of
`storedLater tasks` in a write to which it assigned resource version "3". -/
def storedAfterRemoval : ResourceBinding :=
  { (bindingWith none) with
    Meta := { (bindingWith none).Meta with ResourceVersion := "3", Generation := 2 } }

/-- The binding of `bindingWith`, marked for deletion at instant 125. -/
def markedForDeletion (tasks : GoSlice EvictionTask) : ResourceBinding :=
  { bindingWith tasks with
    Meta := { (bindingWith tasks).Meta with DeletionTimestamp := some 125 } }

/-- The patch call `syncBinding` makes for `bindingWith (some [taskExpired])` when no task
is kept. -/
def patchOfExpired : PatchCall :=
  { obj := bindingWith none, patch := MergeFrom (bindingWith (some [taskExpired])) }

/-- A controller over a store that returns the given binding and accepts every patch,
with timeout 120, a clock that stands at instant 130, and epsilon 1. -/
def controllerOver (b : ResourceBinding) : Controller :=
  controller (fun _ => .ok b) (fun _ => none) 120 (fun _ => 130) 1

/-- A controller over a store that returns the given binding and answers every patch
with the given error, with timeout 120, a clock that stands at instant 130, and
epsilon 1. -/
def controllerFailing (b : ResourceBinding) (err : APIError) : Controller :=
  controller (fun _ => .ok b) (fun _ => some err) 120 (fun _ => 130) 1

/-- A controller over a store that returns the given binding and accepts every patch,
with timeout 120, epsilon 1, and a clock that advances by one between two readings:
reading `k` returns `130 + k`. -/
def controllerTicking (b : ResourceBinding) : Controller :=
  controller (fun _ => .ok b) (fun _ => none) 120 (fun k => 130 + (k : Int)) 1

end GracefulEviction

namespace Estimator

/-! ## The estimator addon: status -/

/-- The four status constants of package `addoninit` that `status` returns
(`AddonUnknownStatus`, `AddonDisabledStatus`, `AddonEnabledStatus`,
`AddonUnhealthyStatus`).  Their string values are not among the sources; each
constructor stands for the constant of that name. -/
inductive AddonStatus where
  | Unknown
  | Disabled
  | Enabled
  | Unhealthy
  deriving DecidableEq, Repr

/-- The errors the deployment lookup can return. -/
inductive LookupError where
  | notFound
  | other (msg : String)
  deriving DecidableEq, Repr

/-- Go `apierrors.IsNotFound` on a lookup error. -/
def IsNotFound (e : LookupError) : Bool :=
  match e with
  | .notFound => true
  | _ => false

/-- The fields of `appsv1.DeploymentStatus` that `status` reads. -/
structure DeploymentStatus where
  Replicas : Int
  ReadyReplicas : Int
  AvailableReplicas : Int
  deriving DecidableEq, Repr

/-- The fields of `addoninit.CommandAddonsListOption` that `status` reads.  `Get` is the
call `KubeClientSet.AppsV1().Deployments(namespace).Get(ctx, name, ...)`, given the
namespace and the name. -/
structure CommandAddonsListOption where
  Cluster : String
  Namespace : String
  Get : String → String → Except LookupError DeploymentStatus

/-- The result of `status`: the status constant, the error, and the lookups made, each
with namespace and deployment name. -/
structure StatusResult where
  status : AddonStatus
  err : Option LookupError
  lookups : List (String × String)
  deriving DecidableEq, Repr

/-- The function `status` of the estimator addon (estimator.go, lines 31-50).  The
function `names.GenerateEstimatorDeploymentName` is not among the sources and is the
argument `generateEstimatorDeploymentName`. -/
def status (generateEstimatorDeploymentName : String → String)
    (opts : CommandAddonsListOption) : StatusResult :=
  if opts.Cluster.length == 0 then
    { status := .Unknown, err := none, lookups := [] }
  else
    let esName := generateEstimatorDeploymentName opts.Cluster
    match opts.Get opts.Namespace esName with
    | .error err =>
      if IsNotFound err then
        { status := .Disabled, err := none, lookups := [(opts.Namespace, esName)] }
      else
        { status := .Unknown, err := some err, lookups := [(opts.Namespace, esName)] }
    | .ok deployment =>
      if deployment.Replicas != deployment.ReadyReplicas ||
          deployment.Replicas != deployment.AvailableReplicas then
        { status := .Unhealthy, err := none, lookups := [(opts.Namespace, esName)] }
      else
        { status := .Enabled, err := none, lookups := [(opts.Namespace, esName)] }

/-- The deployment name of the estimator of a cluster, as used in the examples. -/
def estimatorName (cluster : String) : String :=
  "karmada-scheduler-estimator-" ++ cluster

/-- Options for cluster `member1` over a lookup that answers with the given result. -/
def optionsFor (cluster : String) (answer : Except LookupError DeploymentStatus) :
    CommandAddonsListOption :=
  { Cluster := cluster, Namespace := "karmada-system", Get := fun _ _ => answer }

end Estimator

namespace GracefulEviction

/-! ## Lemmas on traces -/

theorem patchesOf_append (a b : List Call) :
    patchesOf (a ++ b) = patchesOf a ++ patchesOf b := by
  simp [patchesOf, List.filterMap_append]

theorem issuedBy_append (a b : List Call) : issuedBy a (a ++ b) = patchesOf b := by
  simp [issuedBy, patchesOf_append]

theorem deepEqual_iff {α : Type} [DecidableEq α] (a b : GoSlice α) :
    DeepEqual a b = true ↔ a = b := by
  cases a <;> cases b <;> simp [DeepEqual]

theorem deepEqual_iff_valueEqual {α : Type} [DecidableEq α] (a b : GoSlice α) :
    DeepEqual a b = true ↔ (valueEqual a b = true ∧ (a = none ↔ b = none)) := by
  cases a <;> cases b <;> simp [DeepEqual, valueEqual, GoSlice.toList]

/-- The trace of `syncBinding` on the unchanged path. -/
theorem syncBinding_unchanged (c : Controller) (binding : ResourceBinding) (w : World)
    (h : DeepEqual binding.Spec.GracefulEvictionTasks
      (c.assessEvictionTasks binding.Spec binding.Status.AggregatedStatus
        c.GracefulEvictionTimeout (c.Now w.clockReads)) = true) :
    (syncBinding c binding w).1.2 = none ∧
    (syncBinding c binding w).2.calls = w.calls ++
      [Call.clock w.clockReads (c.Now w.clockReads),
       Call.assess binding.Spec.GracefulEvictionTasks binding.Status.AggregatedStatus
         c.GracefulEvictionTimeout (c.Now w.clockReads),
       Call.clock (w.clockReads + 1) (c.Now (w.clockReads + 1)),
       Call.nextRetry (c.assessEvictionTasks binding.Spec binding.Status.AggregatedStatus
         c.GracefulEvictionTimeout (c.Now w.clockReads)) c.GracefulEvictionTimeout
         (c.Now (w.clockReads + 1))] := by
  simp [syncBinding, readClock, World.record, h]

/-- The patch calls `syncBinding` issues: none on the unchanged path, else the one that
sets the task sequence of a copy of the binding to the kept tasks. -/
theorem issuedBy_syncBinding (c : Controller) (binding : ResourceBinding) (w : World) :
    issuedBy w.calls (syncBinding c binding w).2.calls =
      if DeepEqual binding.Spec.GracefulEvictionTasks
          (c.assessEvictionTasks binding.Spec binding.Status.AggregatedStatus
            c.GracefulEvictionTimeout (c.Now w.clockReads)) then []
      else [{ obj := { binding with
                Spec := { binding.Spec with
                  GracefulEvictionTasks :=
                    c.assessEvictionTasks binding.Spec binding.Status.AggregatedStatus
                      c.GracefulEvictionTimeout (c.Now w.clockReads) } },
              patch := MergeFrom binding }] := by
  unfold syncBinding
  simp only [readClock, World.record, ResourceBinding.DeepCopy]
  split
  · simp [issuedBy, patchesOf]
  · split <;> simp [issuedBy, patchesOf]

/-- A patch call issued by `syncBinding` submits the kept tasks. -/
theorem issued_patch_tasks (c : Controller) (binding : ResourceBinding) (w : World)
    (p : PatchCall) (hp : p ∈ issuedBy w.calls (syncBinding c binding w).2.calls) :
    p.obj.Spec.GracefulEvictionTasks =
      c.assessEvictionTasks binding.Spec binding.Status.AggregatedStatus
        c.GracefulEvictionTimeout (c.Now w.clockReads) := by
  rw [issuedBy_syncBinding] at hp
  split at hp
  · simp at hp
  · simp only [List.mem_singleton] at hp
    subst hp
    rfl

end GracefulEviction

namespace GracefulEviction

/-! ## The controller: unchanged path -/

/-- C1, as stated, fails: the current task sequence is empty but not nil, the assessor
returns the nil sequence, the two are value-equal, and `syncBinding` still issues a
Patch. -/
theorem syncBinding_patches_value_equal :
    valueEqual (bindingWith (some [])).Spec.GracefulEvictionTasks
      ((controllerOver (bindingWith (some []))).assessEvictionTasks
        (bindingWith (some [])).Spec (bindingWith (some [])).Status.AggregatedStatus
        120 130) = true ∧
    issuedBy World.init.calls
      (syncBinding (controllerOver (bindingWith (some []))) (bindingWith (some []))
        World.init).2.calls =
      [{ obj := bindingWith none, patch := MergeFrom (bindingWith (some [])) }] := by
  decide

/-- C1, amended: when the assessed sequence is value-equal to the current one and the two
are both nil or both not nil (which is `reflect.DeepEqual`), `syncBinding` issues no
Patch and returns a nil error. -/
theorem syncBinding_no_patch_when_deep_equal (c : Controller) (binding : ResourceBinding)
    (w : World)
    (hval : valueEqual binding.Spec.GracefulEvictionTasks
      (c.assessEvictionTasks binding.Spec binding.Status.AggregatedStatus
        c.GracefulEvictionTimeout (c.Now w.clockReads)) = true)
    (hnil : binding.Spec.GracefulEvictionTasks = none ↔
      c.assessEvictionTasks binding.Spec binding.Status.AggregatedStatus
        c.GracefulEvictionTimeout (c.Now w.clockReads) = none) :
    issuedBy w.calls (syncBinding c binding w).2.calls = [] ∧
    (syncBinding c binding w).1.2 = none := by
  have h := (deepEqual_iff_valueEqual _ _).mpr ⟨hval, hnil⟩
  refine ⟨?_, (syncBinding_unchanged c binding w h).1⟩
  rw [issuedBy_syncBinding, if_pos h]

/-- The amended C1 at a binding with one pending task that the assessor keeps. -/
theorem syncBinding_no_patch_when_deep_equal_witness :
    issuedBy World.init.calls
      (syncBinding (controllerOver (bindingWith (some [taskM1])))
        (bindingWith (some [taskM1])) World.init).2.calls = [] ∧
    (syncBinding (controllerOver (bindingWith (some [taskM1])))
        (bindingWith (some [taskM1])) World.init).1.2 = none :=
  syncBinding_no_patch_when_deep_equal (controllerOver (bindingWith (some [taskM1])))
    (bindingWith (some [taskM1])) World.init (by decide) (by decide)

/-! ## The event filter -/

/-- C2: `UpdateFunc` admits an update event exactly when the new object's task sequence is
not empty and its scheduler observed generation equals its generation; the old object
plays no part. -/
theorem updateFunc_iff (oldObj otherOld newObj : ResourceBinding) :
    (UpdateFunc { ObjectOld := oldObj, ObjectNew := newObj } = true ↔
      (newObj.Spec.GracefulEvictionTasks.toList ≠ [] ∧
        newObj.Status.SchedulerObservedGeneration = newObj.Meta.Generation)) ∧
    UpdateFunc { ObjectOld := oldObj, ObjectNew := newObj } =
      UpdateFunc { ObjectOld := otherOld, ObjectNew := newObj } := by
  refine ⟨?_, rfl⟩
  unfold UpdateFunc
  rcases h : newObj.Spec.GracefulEvictionTasks with _ | l
  · simp [GoSlice.len, GoSlice.toList, h]
  · cases l <;> simp [GoSlice.len, GoSlice.toList, h]

/-- C3: create, delete and generic events are never admitted by the predicate, whatever
object they carry. -/
theorem predicate_rejects_create_delete_generic (obj : ResourceBinding) :
    resourceBindingPredicateFn (Event.create obj) = false ∧
    resourceBindingPredicateFn (Event.delete obj) = false ∧
    resourceBindingPredicateFn (Event.generic obj) = false :=
  ⟨rfl, rfl, rfl⟩

/-! ## The controller: fetch -/

/-- C7: when Get reports NotFound, `Reconcile` returns the empty result and a nil error,
and the Get is the only call of the cycle: the assessor is not run and no Patch is
issued. -/
theorem reconcile_not_found (c : Controller) (req : Request) (w : World) (err : APIError)
    (hget : c.Get req = .error err) (hnf : IsNotFound err = true) :
    (Reconcile c req w).1 = ({ Requeue := false, RequeueAfter := 0 }, none) ∧
    (Reconcile c req w).2.calls = w.calls ++ [Call.get req] ∧
    issuedBy w.calls (Reconcile c req w).2.calls = [] ∧
    assessed (Reconcile c req w).2.calls = assessed w.calls := by
  have h : Reconcile c req w =
      (({ Requeue := false, RequeueAfter := 0 }, none), w.record (Call.get req)) := by
    simp [Reconcile, hget, hnf]
  rw [h]
  simp [World.record, issuedBy_append, patchesOf, assessed]

/-- C7 at a store that holds no object. -/
theorem reconcile_not_found_witness :
    (Reconcile (controller (fun _ => .error .notFound) (fun _ => none) 120 (fun _ => 130) 1)
        requestNginx World.init).1 = ({ Requeue := false, RequeueAfter := 0 }, none) ∧
    (Reconcile (controller (fun _ => .error .notFound) (fun _ => none) 120 (fun _ => 130) 1)
        requestNginx World.init).2.calls = World.init.calls ++ [Call.get requestNginx] ∧
    issuedBy World.init.calls
      (Reconcile (controller (fun _ => .error .notFound) (fun _ => none) 120 (fun _ => 130) 1)
        requestNginx World.init).2.calls = [] ∧
    assessed (Reconcile (controller (fun _ => .error .notFound) (fun _ => none) 120
        (fun _ => 130) 1) requestNginx World.init).2.calls = assessed World.init.calls :=
  reconcile_not_found _ requestNginx World.init .notFound rfl rfl

/-- C8: when the fetched binding has a non-zero deletion timestamp, `Reconcile` returns
the empty result (no requeue, no wake-up) and a nil error, and issues no Patch, whatever
tasks and status the binding holds. -/
theorem reconcile_marked_for_deletion (c : Controller) (req : Request) (w : World)
    (binding : ResourceBinding) (hget : c.Get req = .ok binding)
    (hdel : IsZero binding.Meta.DeletionTimestamp = false) :
    (Reconcile c req w).1 = ({ Requeue := false, RequeueAfter := 0 }, none) ∧
    (Reconcile c req w).2.calls = w.calls ++ [Call.get req] ∧
    issuedBy w.calls (Reconcile c req w).2.calls = [] := by
  have h : Reconcile c req w =
      (({ Requeue := false, RequeueAfter := 0 }, none), w.record (Call.get req)) := by
    simp [Reconcile, hget, hdel]
  rw [h]
  simp [World.record, issuedBy_append, patchesOf]

/-- C8 at a binding marked for deletion at instant 125 that still holds an expired
task. -/
theorem reconcile_marked_for_deletion_witness :
    (Reconcile (controllerOver (markedForDeletion (some [taskExpired]))) requestNginx
        World.init).1 = ({ Requeue := false, RequeueAfter := 0 }, none) ∧
    (Reconcile (controllerOver (markedForDeletion (some [taskExpired]))) requestNginx
        World.init).2.calls = World.init.calls ++ [Call.get requestNginx] ∧
    issuedBy World.init.calls
      (Reconcile (controllerOver (markedForDeletion (some [taskExpired]))) requestNginx
        World.init).2.calls = [] :=
  reconcile_marked_for_deletion _ requestNginx World.init
    (markedForDeletion (some [taskExpired])) rfl (by decide)

end GracefulEviction

namespace GracefulEviction

/-! ## The controller: patch -/

/-- C9: every Patch `syncBinding` issues submits an object whose task sequence is the
assessed sequence and whose metadata, status and remaining spec fields are those of the
fetched binding; the patch is taken against the fetched binding, which is unchanged. -/
theorem syncBinding_patch_frame (c : Controller) (binding : ResourceBinding) (w : World)
    (p : PatchCall) (hp : p ∈ issuedBy w.calls (syncBinding c binding w).2.calls) :
    p.obj.Spec.GracefulEvictionTasks =
      c.assessEvictionTasks binding.Spec binding.Status.AggregatedStatus
        c.GracefulEvictionTimeout (c.Now w.clockReads) ∧
    p.obj.Spec.Other = binding.Spec.Other ∧
    p.obj.Status = binding.Status ∧
    p.obj.Meta = binding.Meta ∧
    p.patch.base = binding := by
  rw [issuedBy_syncBinding] at hp
  split at hp
  · simp at hp
  · simp only [List.mem_singleton] at hp
    subst hp
    exact ⟨rfl, rfl, rfl, rfl, rfl⟩

/-- C9 at a binding whose only task has expired: the object submitted is the binding
with a nil task sequence. -/
theorem syncBinding_patch_frame_witness :
    patchOfExpired.obj.Spec.GracefulEvictionTasks =
      (controllerOver (bindingWith (some [taskExpired]))).assessEvictionTasks
        (bindingWith (some [taskExpired])).Spec
        (bindingWith (some [taskExpired])).Status.AggregatedStatus
        (controllerOver (bindingWith (some [taskExpired]))).GracefulEvictionTimeout
        ((controllerOver (bindingWith (some [taskExpired]))).Now World.init.clockReads) ∧
    patchOfExpired.obj.Spec.Other = (bindingWith (some [taskExpired])).Spec.Other ∧
    patchOfExpired.obj.Status = (bindingWith (some [taskExpired])).Status ∧
    patchOfExpired.obj.Meta = (bindingWith (some [taskExpired])).Meta ∧
    patchOfExpired.patch.base = bindingWith (some [taskExpired]) :=
  syncBinding_patch_frame (controllerOver (bindingWith (some [taskExpired])))
    (bindingWith (some [taskExpired])) World.init patchOfExpired (by decide)

/-- Under the optimistic lock a patch taken from a binding is answered with Conflict by a
store that holds another resource version. -/
theorem applyPatch_optimisticLock_conflict (base modified stored : ResourceBinding)
    (newVersion : String)
    (h : base.Meta.ResourceVersion ≠ stored.Meta.ResourceVersion) :
    applyPatch stored newVersion
      (PatchCall.data { obj := modified, patch := MergeFromWithOptimisticLock base }) =
      .error .conflict := by
  simp [applyPatch, PatchCall.data, MergeFromWithOptimisticLock, h]

/-- A nil and an empty task sequence marshal alike: the patch `syncBinding` issues for an
empty current sequence and a nil assessed one has an empty body, and the store keeps the
object it holds as it is. -/
theorem patch_body_empty_for_nil_against_empty :
    PatchCall.data { obj := bindingWith none, patch := MergeFrom (bindingWith (some [])) } =
      { resourceVersion := none, gracefulEvictionTasks := none } ∧
    applyPatch (storedLater (some [taskM2])) "3"
      (PatchCall.data { obj := bindingWith none,
                        patch := MergeFrom (bindingWith (some [])) }) =
      .ok (storedLater (some [taskM2])) :=
  ⟨by decide, rfl⟩

/-- The store answers a body without version precondition with the object it holds,
changed at most in the task sequence, the resource version and the generation. -/
theorem applyPatch_without_precondition (stored : ResourceBinding) (newVersion : String)
    (entry : Option (GoSlice EvictionTask)) :
    ∃ r, applyPatch stored newVersion
        { resourceVersion := none, gracefulEvictionTasks := entry } = .ok r ∧
      r.Spec.GracefulEvictionTasks = mergeTasks stored.Spec.GracefulEvictionTasks entry ∧
      r.Spec.Other = stored.Spec.Other ∧
      r.Status = stored.Status ∧
      r.Meta.Name = stored.Meta.Name ∧
      r.Meta.Namespace = stored.Meta.Namespace ∧
      r.Meta.DeletionTimestamp = stored.Meta.DeletionTimestamp ∧
      r.Meta.Labels = stored.Meta.Labels := by
  refine ⟨writeTasks stored newVersion
    (mergeTasks stored.Spec.GracefulEvictionTasks entry), rfl, ?_⟩
  unfold writeTasks
  split
  · rename_i h
    exact ⟨h.symm, rfl, rfl, rfl, rfl, rfl, rfl⟩
  · exact ⟨rfl, rfl, rfl, rfl, rfl, rfl, rfl⟩

/-- C10, as stated, fails: the binding was read at resource version "1" with one expired
task; the store meanwhile holds resource version "2" with a second task appended.  The
Patch of `syncBinding` carries no version precondition, its body removes the task field,
and the store applies it instead of answering Conflict: the appended task is gone. -/
theorem syncBinding_patch_not_conditional :
    issuedBy World.init.calls
      (syncBinding (controllerOver (bindingWith (some [taskExpired])))
        (bindingWith (some [taskExpired])) World.init).2.calls = [patchOfExpired] ∧
    patchOfExpired.patch.base.Meta.ResourceVersion ≠
      (storedLater (some [taskExpired, taskM2])).Meta.ResourceVersion ∧
    patchOfExpired.data.resourceVersion = none ∧
    patchOfExpired.data = { resourceVersion := none, gracefulEvictionTasks := some none } ∧
    applyPatch (storedLater (some [taskExpired, taskM2])) "3" patchOfExpired.data =
      .ok storedAfterRemoval :=
  ⟨by decide, by decide, by decide, by decide, rfl⟩

/-- C10, amended: every Patch `syncBinding` issues is a merge patch taken from the fetched
binding by `client.MergeFrom` with no optimistic lock; its body carries no version
precondition and no entry but the one of the task sequence, which is present only when the
marshalled task sequences of the fetched and of the submitted object differ; a store
holding any version of the object applies it, never answers Conflict, and changes nothing
of the stored object but the task sequence (with resource version and generation). -/
theorem syncBinding_patch_unconditional (c : Controller) (binding : ResourceBinding)
    (w : World) (p : PatchCall)
    (hp : p ∈ issuedBy w.calls (syncBinding c binding w).2.calls) :
    p.patch = MergeFrom binding ∧
    p.patch.opts.OptimisticLock = false ∧
    p.data.resourceVersion = none ∧
    p.data.gracefulEvictionTasks =
      (if marshalTasks (keptOf c binding w) =
          marshalTasks binding.Spec.GracefulEvictionTasks then none
       else some (marshalTasks (keptOf c binding w))) ∧
    ∀ (stored : ResourceBinding) (newVersion : String),
      ∃ r, applyPatch stored newVersion p.data = .ok r ∧
        r.Spec.GracefulEvictionTasks =
          mergeTasks stored.Spec.GracefulEvictionTasks p.data.gracefulEvictionTasks ∧
        r.Spec.Other = stored.Spec.Other ∧
        r.Status = stored.Status ∧
        r.Meta.Name = stored.Meta.Name ∧
        r.Meta.Namespace = stored.Meta.Namespace ∧
        r.Meta.DeletionTimestamp = stored.Meta.DeletionTimestamp ∧
        r.Meta.Labels = stored.Meta.Labels := by
  rw [issuedBy_syncBinding] at hp
  split at hp
  · simp at hp
  · simp only [List.mem_singleton] at hp
    subst hp
    refine ⟨rfl, rfl, rfl, rfl, ?_⟩
    intro stored newVersion
    exact applyPatch_without_precondition stored newVersion _

/-- The amended C10 at the binding whose only task has expired. -/
theorem syncBinding_patch_unconditional_witness :
    patchOfExpired.patch = MergeFrom (bindingWith (some [taskExpired])) ∧
    patchOfExpired.patch.opts.OptimisticLock = false ∧
    patchOfExpired.data.resourceVersion = none ∧
    patchOfExpired.data.gracefulEvictionTasks =
      (if marshalTasks (keptOf (controllerOver (bindingWith (some [taskExpired])))
            (bindingWith (some [taskExpired])) World.init) =
          marshalTasks (bindingWith (some [taskExpired])).Spec.GracefulEvictionTasks
       then none
       else some (marshalTasks (keptOf (controllerOver (bindingWith (some [taskExpired])))
            (bindingWith (some [taskExpired])) World.init))) ∧
    ∀ (stored : ResourceBinding) (newVersion : String),
      ∃ r, applyPatch stored newVersion patchOfExpired.data = .ok r ∧
        r.Spec.GracefulEvictionTasks =
          mergeTasks stored.Spec.GracefulEvictionTasks
            patchOfExpired.data.gracefulEvictionTasks ∧
        r.Spec.Other = stored.Spec.Other ∧
        r.Status = stored.Status ∧
        r.Meta.Name = stored.Meta.Name ∧
        r.Meta.Namespace = stored.Meta.Namespace ∧
        r.Meta.DeletionTimestamp = stored.Meta.DeletionTimestamp ∧
        r.Meta.Labels = stored.Meta.Labels :=
  syncBinding_patch_unconditional (controllerOver (bindingWith (some [taskExpired])))
    (bindingWith (some [taskExpired])) World.init patchOfExpired (by decide)

end GracefulEviction

namespace GracefulEviction

/-! ## The assessor -/

theorem collapseDuplicates_subset (l : List EvictionTask) :
    ∀ x ∈ collapseDuplicates l, x ∈ l := by
  induction l with
  | nil => simp [collapseDuplicates]
  | cons t rest ih =>
    intro x hx
    unfold collapseDuplicates at hx
    split at hx
    · exact List.mem_cons_of_mem _ (ih x hx)
    · rcases List.mem_cons.mp hx with h | h
      · exact h ▸ List.mem_cons_self _ _
      · exact List.mem_cons_of_mem _ (ih x (List.mem_filter.mp h).1)

theorem collapseDuplicates_nodup (l : List EvictionTask) :
    ((collapseDuplicates l).map (fun t => t.clusterName)).Nodup := by
  induction l with
  | nil => simp [collapseDuplicates]
  | cons t rest ih =>
    unfold collapseDuplicates
    split
    · exact ih
    · rw [List.map_cons, List.nodup_cons]
      constructor
      · intro hmem
        rcases List.mem_map.mp hmem with ⟨u, hu, hname⟩
        have := (List.mem_filter.mp hu).2
        simp [hname] at this
      · exact List.Nodup.sublist (List.Sublist.map _ (List.filter_sublist _)) ih

theorem mem_assess (tasks : List EvictionTask) (status : List AggregatedStatusItem)
    (timeout now : Int) (t : EvictionTask) (h : t ∈ assess tasks status timeout now) :
    t ∈ tasks ∧ shouldDrop t status timeout now = false := by
  have h1 := collapseDuplicates_subset _ t h
  have h2 := List.mem_filter.mp h1
  exact ⟨h2.1, by simpa using h2.2⟩

theorem assessEvictionTasks_toList (spec : ResourceBindingSpec)
    (status : List AggregatedStatusItem) (timeout now : Int) :
    (assessEvictionTasks spec status timeout now).toList =
      assess spec.GracefulEvictionTasks.toList status timeout now := by
  unfold assessEvictionTasks
  split <;> simp_all [GoSlice.toList]

/-- Every task the assessor keeps is before its deadline and not confirmed migrated. -/
theorem assess_kept (tasks : List EvictionTask) (status : List AggregatedStatusItem)
    (timeout now : Int) (t : EvictionTask) (h : t ∈ assess tasks status timeout now) :
    now < deadline t timeout now ∧ migrationConfirmed t status = false := by
  have h2 := (mem_assess tasks status timeout now t h).2
  simp only [shouldDrop, Bool.or_eq_false_iff, decide_eq_false_iff_not, not_le, ge_iff_le]
    at h2
  exact h2

/-- C6: the sequence `assessEvictionTasks` returns never holds two tasks with the same
cluster name, whatever the input (duplicates included), and neither does the task
sequence of an object that `syncBinding` submits in a Patch. -/
theorem assessed_clusters_distinct (spec : ResourceBindingSpec)
    (status : List AggregatedStatusItem) (timeout now : Int) :
    ((assessEvictionTasks spec status timeout now).toList.map
      (fun t => t.clusterName)).Nodup ∧
    (∀ (get : Request → Except APIError ResourceBinding)
      (patch : PatchCall → Option APIError) (clock : Nat → Int) (epsilon : Int)
      (binding : ResourceBinding) (w : World) (p : PatchCall),
      p ∈ issuedBy w.calls
        (syncBinding (controller get patch timeout clock epsilon) binding w).2.calls →
      (p.obj.Spec.GracefulEvictionTasks.toList.map (fun t => t.clusterName)).Nodup) := by
  constructor
  · rw [assessEvictionTasks_toList]
    exact collapseDuplicates_nodup _
  · intro get patch clock epsilon binding w p hp
    rw [issued_patch_tasks _ binding w p hp]
    simp only [controller]
    rw [assessEvictionTasks_toList]
    exact collapseDuplicates_nodup _

/-- C6 at a binding that holds two tasks for `m1` and one for `m2`. -/
theorem assessed_clusters_distinct_witness :
    ((assessEvictionTasks (bindingWith (some [taskM1, taskM2, taskLongGrace])).Spec []
      120 130).toList.map (fun t => t.clusterName)).Nodup ∧
    (∀ (get : Request → Except APIError ResourceBinding)
      (patch : PatchCall → Option APIError) (clock : Nat → Int) (epsilon : Int)
      (binding : ResourceBinding) (w : World) (p : PatchCall),
      p ∈ issuedBy w.calls
        (syncBinding (controller get patch 120 clock epsilon) binding w).2.calls →
      (p.obj.Spec.GracefulEvictionTasks.toList.map (fun t => t.clusterName)).Nodup) :=
  assessed_clusters_distinct (bindingWith (some [taskM1, taskM2, taskLongGrace])).Spec []
    120 130

end GracefulEviction

namespace GracefulEviction

/-! ## The retry scheduler -/

theorem foldl_min_le_init (f : EvictionTask → Int) (ts : List EvictionTask) (a : Int) :
    ts.foldl (fun m u => min m (f u)) a ≤ a := by
  induction ts generalizing a with
  | nil => simp
  | cons u us ih =>
    simp only [List.foldl_cons]
    exact le_trans (ih _) (min_le_left _ _)

theorem foldl_min_le_mem (f : EvictionTask → Int) (ts : List EvictionTask) (a : Int)
    (u : EvictionTask) (hu : u ∈ ts) : ts.foldl (fun m u => min m (f u)) a ≤ f u := by
  induction ts generalizing a with
  | nil => simp at hu
  | cons v vs ih =>
    simp only [List.foldl_cons]
    rcases List.mem_cons.mp hu with h | h
    · subst h
      exact le_trans (foldl_min_le_init f vs _) (min_le_right _ _)
    · exact ih _ h

theorem foldl_min_attained (f : EvictionTask → Int) (ts : List EvictionTask) (a : Int) :
    ts.foldl (fun m u => min m (f u)) a = a ∨
      ∃ u ∈ ts, ts.foldl (fun m u => min m (f u)) a = f u := by
  induction ts generalizing a with
  | nil => simp
  | cons v vs ih =>
    simp only [List.foldl_cons]
    rcases ih (min a (f v)) with h | ⟨u, hu, h⟩
    · rcases min_choice a (f v) with hm | hm
      · left; rw [h, hm]
      · right; exact ⟨v, List.mem_cons_self _ _, by rw [h, hm]⟩
    · right; exact ⟨u, List.mem_cons_of_mem _ hu, h⟩

theorem minRemaining_le (t : EvictionTask) (ts : List EvictionTask) (timeout now : Int)
    (u : EvictionTask) (hu : u ∈ t :: ts) :
    minRemaining t ts timeout now ≤ deadline u timeout now - now := by
  unfold minRemaining
  rcases List.mem_cons.mp hu with h | h
  · subst h
    exact foldl_min_le_init (fun u => deadline u timeout now - now) ts _
  · exact foldl_min_le_mem (fun u => deadline u timeout now - now) ts _ u h

theorem minRemaining_attained (t : EvictionTask) (ts : List EvictionTask)
    (timeout now : Int) :
    ∃ u ∈ t :: ts, minRemaining t ts timeout now = deadline u timeout now - now := by
  unfold minRemaining
  rcases foldl_min_attained (fun u => deadline u timeout now - now) ts
      (deadline t timeout now - now) with h | ⟨u, hu, h⟩
  · exact ⟨t, List.mem_cons_self _ _, h⟩
  · exact ⟨u, List.mem_cons_of_mem _ hu, h⟩

/-- The value of `nextRetry` on a non-empty sequence. -/
theorem nextRetry_cons (epsilon : Int) (kept : GoSlice EvictionTask) (timeout now : Int)
    (t : EvictionTask) (ts : List EvictionTask) (h : kept.toList = t :: ts) :
    nextRetry epsilon kept timeout now =
      if minRemaining t ts timeout now ≤ 0 then epsilon
      else minRemaining t ts timeout now := by
  simp only [nextRetry, nextDelay, h]
  split <;> simp

/-- C5, as stated, fails: one kept task created at `now` with a grace period of 600 of
its own, global timeout 120; the delay is 600, the remaining time to the only deadline,
and exceeds the global timeout. -/
theorem nextRetry_exceeds_timeout :
    nextRetry 1 (some [taskLongGrace]) 120 100 = 600 ∧
    deadline taskLongGrace 120 100 - 100 = 600 ∧
    ¬ nextRetry 1 (some [taskLongGrace]) 120 100 ≤ 120 := by
  decide

/-- C5, amended: with a positive epsilon, the delay of `nextRetry` is zero (none) exactly
for an empty kept sequence and strictly positive otherwise; when every kept task is
before its deadline the delay is the least `deadline - now` over the kept tasks; and it
is at most the global timeout when moreover some kept task has at most the global timeout
left. -/
theorem nextRetry_delay (epsilon timeout now : Int) (kept : GoSlice EvictionTask)
    (heps : 0 < epsilon) :
    (nextRetry epsilon kept timeout now = 0 ↔ kept.toList = []) ∧
    (kept.toList ≠ [] → 0 < nextRetry epsilon kept timeout now) ∧
    (kept.toList ≠ [] → (∀ t ∈ kept.toList, now < deadline t timeout now) →
      (∀ t ∈ kept.toList,
        nextRetry epsilon kept timeout now ≤ deadline t timeout now - now) ∧
      (∃ t ∈ kept.toList,
        nextRetry epsilon kept timeout now = deadline t timeout now - now)) ∧
    (kept.toList ≠ [] → (∀ t ∈ kept.toList, now < deadline t timeout now) →
      (∃ t ∈ kept.toList, deadline t timeout now - now ≤ timeout) →
      nextRetry epsilon kept timeout now ≤ timeout) := by
  rcases hk : kept.toList with _ | ⟨t, ts⟩
  · refine ⟨?_, ?_, ?_, ?_⟩
    · simp [nextRetry, nextDelay, hk]
    · intro h; exact absurd rfl h
    · intro h; exact absurd rfl h
    · intro h; exact absurd rfl h
  · have hval := nextRetry_cons epsilon kept timeout now t ts hk
    have hpos : 0 < nextRetry epsilon kept timeout now := by
      rw [hval]
      split <;> omega
    have hopen : (∀ u ∈ t :: ts, now < deadline u timeout now) →
        nextRetry epsilon kept timeout now = minRemaining t ts timeout now := by
      intro hall
      obtain ⟨u, hu, hmin⟩ := minRemaining_attained t ts timeout now
      have := hall u hu
      rw [hval, if_neg (by omega)]
    refine ⟨?_, fun _ => hpos, ?_, ?_⟩
    · constructor
      · intro h0; omega
      · intro h; exact absurd h (List.cons_ne_nil _ _)
    · intro _ hall
      rw [hopen hall]
      exact ⟨fun u hu => minRemaining_le t ts timeout now u hu,
        minRemaining_attained t ts timeout now⟩
    · intro _ hall ⟨u, hu, hle⟩
      rw [hopen hall]
      exact le_trans (minRemaining_le t ts timeout now u hu) hle

/-- The amended C5 at epsilon 1, timeout 120, `now` 130 and the kept tasks for `m1` and
`m2`, both created at instant 100. -/
theorem nextRetry_delay_witness :
    (nextRetry 1 (some [taskM1, taskM2]) 120 130 = 0 ↔
      GoSlice.toList (some [taskM1, taskM2]) = []) ∧
    (GoSlice.toList (some [taskM1, taskM2]) ≠ [] →
      0 < nextRetry 1 (some [taskM1, taskM2]) 120 130) ∧
    (GoSlice.toList (some [taskM1, taskM2]) ≠ [] →
      (∀ t ∈ GoSlice.toList (some [taskM1, taskM2]), 130 < deadline t 120 130) →
      (∀ t ∈ GoSlice.toList (some [taskM1, taskM2]),
        nextRetry 1 (some [taskM1, taskM2]) 120 130 ≤ deadline t 120 130 - 130) ∧
      (∃ t ∈ GoSlice.toList (some [taskM1, taskM2]),
        nextRetry 1 (some [taskM1, taskM2]) 120 130 = deadline t 120 130 - 130)) ∧
    (GoSlice.toList (some [taskM1, taskM2]) ≠ [] →
      (∀ t ∈ GoSlice.toList (some [taskM1, taskM2]), 130 < deadline t 120 130) →
      (∃ t ∈ GoSlice.toList (some [taskM1, taskM2]), deadline t 120 130 - 130 ≤ 120) →
      nextRetry 1 (some [taskM1, taskM2]) 120 130 ≤ 120) :=
  nextRetry_delay 1 120 130 (some [taskM1, taskM2]) (by decide)

end GracefulEviction

namespace GracefulEviction

/-! ## The scenarios of the specification, section 8 -/

/-- Scenario A: timeout 120, one task for `m1` created at 1000, assessed at 1180 with no
status: dropped, and no further delay. -/
theorem scenario_A :
    assess [{ clusterName := "m1", createdAt := some 1000, gracePeriod := none,
              reason := none }] [] 120 1180 = [] ∧
    nextDelay 1 [] 120 1180 = none := by
  decide

/-- Scenario B: assessed at 1030 with `m1` the only cluster reporting, healthy: kept, and
the delay is 90. -/
theorem scenario_B :
    assess [{ clusterName := "m1", createdAt := some 1000, gracePeriod := none,
              reason := none }] [{ clusterName := "m1", healthy := true }] 120 1030 =
      [{ clusterName := "m1", createdAt := some 1000, gracePeriod := none,
         reason := none }] ∧
    nextDelay 1 [{ clusterName := "m1", createdAt := some 1000, gracePeriod := none,
                   reason := none }] 120 1030 = some 90 := by
  decide

/-- Scenario C: two tasks with deadlines 1010 and 1040, assessed at 1000 with no status:
both kept, and the delay is 10. -/
theorem scenario_C :
    assess [{ clusterName := "m1", createdAt := some 1000, gracePeriod := some 10,
              reason := none },
            { clusterName := "m2", createdAt := some 1000, gracePeriod := some 40,
              reason := none }] [] 120 1000 =
      [{ clusterName := "m1", createdAt := some 1000, gracePeriod := some 10,
         reason := none },
       { clusterName := "m2", createdAt := some 1000, gracePeriod := some 40,
         reason := none }] ∧
    nextDelay 1 [{ clusterName := "m1", createdAt := some 1000, gracePeriod := some 10,
                   reason := none },
                 { clusterName := "m2", createdAt := some 1000, gracePeriod := some 40,
                   reason := none }] 120 1000 = some 10 := by
  decide

/-- Scenario D: timeout 300, assessed at 1005 with `m1` absent from the status and `m2`
healthy: dropped before the timeout. -/
theorem scenario_D :
    assess [{ clusterName := "m1", createdAt := some 1000, gracePeriod := none,
              reason := none }] [{ clusterName := "m2", healthy := true }] 300 1005 = [] := by
  decide

/-- Duplicates for one cluster are collapsed to the earliest-created task, and the tasks
retained keep their order. -/
theorem assess_collapses_duplicates :
    assess [taskM1, taskM2, { taskM1 with createdAt := some 50 }] [] 120 130 =
      [taskM2, { taskM1 with createdAt := some 50 }] := by
  decide

end GracefulEviction

namespace GracefulEviction

/-! ## The controller: the three paths of `syncBinding` -/

theorem callsSince_append (a b : List Call) : callsSince a (a ++ b) = b := by
  simp [callsSince]

/-- The unchanged path: the kept tasks are deeply equal to the current ones. -/
theorem syncBinding_of_unchanged (c : Controller) (binding : ResourceBinding) (w : World)
    (h : DeepEqual binding.Spec.GracefulEvictionTasks (keptOf c binding w) = true) :
    syncBinding c binding w =
      ((c.nextRetry (keptOf c binding w) c.GracefulEvictionTimeout
          (c.Now (w.clockReads + 1)), none),
       { clockReads := w.clockReads + 2,
         calls := w.calls ++
          [Call.clock w.clockReads (c.Now w.clockReads),
           Call.assess binding.Spec.GracefulEvictionTasks binding.Status.AggregatedStatus
             c.GracefulEvictionTimeout (c.Now w.clockReads),
           Call.clock (w.clockReads + 1) (c.Now (w.clockReads + 1)),
           Call.nextRetry (keptOf c binding w) c.GracefulEvictionTimeout
             (c.Now (w.clockReads + 1))] }) := by
  unfold keptOf at h
  simp [syncBinding, readClock, World.record, h, keptOf]

/-- The path on which the Patch fails. -/
theorem syncBinding_of_patch_failed (c : Controller) (binding : ResourceBinding)
    (w : World) (err : APIError)
    (h : DeepEqual binding.Spec.GracefulEvictionTasks (keptOf c binding w) = false)
    (hp : c.Patch (patchOf c binding w) = some err) :
    syncBinding c binding w =
      ((0, some err),
       { clockReads := w.clockReads + 1,
         calls := w.calls ++
          [Call.clock w.clockReads (c.Now w.clockReads),
           Call.assess binding.Spec.GracefulEvictionTasks binding.Status.AggregatedStatus
             c.GracefulEvictionTimeout (c.Now w.clockReads),
           Call.patch (patchOf c binding w)] }) := by
  unfold keptOf at h
  unfold patchOf keptOf MergeFrom at hp
  simp [syncBinding, readClock, World.record, h, hp, keptOf, patchOf, MergeFrom,
    ResourceBinding.DeepCopy]

/-- The path on which the Patch succeeds. -/
theorem syncBinding_of_patched (c : Controller) (binding : ResourceBinding) (w : World)
    (h : DeepEqual binding.Spec.GracefulEvictionTasks (keptOf c binding w) = false)
    (hp : c.Patch (patchOf c binding w) = none) :
    syncBinding c binding w =
      ((c.nextRetry (keptOf c binding w) c.GracefulEvictionTimeout
          (c.Now (w.clockReads + 1)), none),
       { clockReads := w.clockReads + 2,
         calls := w.calls ++
          [Call.clock w.clockReads (c.Now w.clockReads),
           Call.assess binding.Spec.GracefulEvictionTasks binding.Status.AggregatedStatus
             c.GracefulEvictionTimeout (c.Now w.clockReads),
           Call.patch (patchOf c binding w),
           Call.clock (w.clockReads + 1) (c.Now (w.clockReads + 1)),
           Call.nextRetry (keptOf c binding w) c.GracefulEvictionTimeout
             (c.Now (w.clockReads + 1))] }) := by
  unfold keptOf at h
  unfold patchOf keptOf MergeFrom at hp
  simp [syncBinding, readClock, World.record, h, hp, keptOf, patchOf, MergeFrom,
    ResourceBinding.DeepCopy]

/-- The kept tasks and the patch call do not depend on the Get recorded in the trace. -/
theorem keptOf_record (c : Controller) (binding : ResourceBinding) (w : World)
    (call : Call) : keptOf c binding (w.record call) = keptOf c binding w := rfl

theorem patchOf_record (c : Controller) (binding : ResourceBinding) (w : World)
    (call : Call) : patchOf c binding (w.record call) = patchOf c binding w := rfl

/-- A cycle of `Reconcile` that fetches a binding not marked for deletion runs
`syncBinding` and turns its answer into the result. -/
theorem reconcile_of_fetched (c : Controller) (req : Request) (w : World)
    (binding : ResourceBinding) (hget : c.Get req = .ok binding)
    (hdel : IsZero binding.Meta.DeletionTimestamp = true) :
    Reconcile c req w =
      match syncBinding c binding (w.record (Call.get req)) with
      | ((_, some err), w1) => (({ Requeue := true, RequeueAfter := 0 }, some err), w1)
      | ((retryDuration, none), w1) =>
        if retryDuration > 0 then
          (({ Requeue := false, RequeueAfter := retryDuration }, none), w1)
        else (({ Requeue := false, RequeueAfter := 0 }, none), w1) := by
  simp [Reconcile, hget, hdel]

/-- A cycle that reaches scheduling: the result and the trace. -/
theorem reconcile_of_scheduled (c : Controller) (req : Request) (w : World)
    (binding : ResourceBinding) (hget : c.Get req = .ok binding)
    (hdel : IsZero binding.Meta.DeletionTimestamp = true)
    (hok : DeepEqual binding.Spec.GracefulEvictionTasks (keptOf c binding w) = true ∨
      c.Patch (patchOf c binding w) = none) :
    (Reconcile c req w).1 =
      (if c.nextRetry (keptOf c binding w) c.GracefulEvictionTimeout
          (c.Now (w.clockReads + 1)) > 0 then
        ({ Requeue := false,
           RequeueAfter := c.nextRetry (keptOf c binding w) c.GracefulEvictionTimeout
             (c.Now (w.clockReads + 1)) }, none)
      else ({ Requeue := false, RequeueAfter := 0 }, none)) ∧
    (Reconcile c req w).2.clockReads = w.clockReads + 2 ∧
    (Reconcile c req w).2.calls = w.calls ++
      ([Call.get req,
        Call.clock w.clockReads (c.Now w.clockReads),
        Call.assess binding.Spec.GracefulEvictionTasks binding.Status.AggregatedStatus
          c.GracefulEvictionTimeout (c.Now w.clockReads)] ++
       (if DeepEqual binding.Spec.GracefulEvictionTasks (keptOf c binding w) then []
        else [Call.patch (patchOf c binding w)]) ++
       [Call.clock (w.clockReads + 1) (c.Now (w.clockReads + 1)),
        Call.nextRetry (keptOf c binding w) c.GracefulEvictionTimeout
          (c.Now (w.clockReads + 1))]) := by
  rw [reconcile_of_fetched c req w binding hget hdel]
  by_cases h : DeepEqual binding.Spec.GracefulEvictionTasks (keptOf c binding w) = true
  · rw [syncBinding_of_unchanged c binding _ (by rw [keptOf_record]; exact h)]
    simp only [keptOf_record]
    simp only [World.record, h]
    split <;> simp_all
  · have hp : c.Patch (patchOf c binding w) = none := by
      rcases hok with h1 | h1
      · exact absurd h1 h
      · exact h1
    have h2 : DeepEqual binding.Spec.GracefulEvictionTasks (keptOf c binding w) = false := by
      simpa using h
    rw [syncBinding_of_patched c binding _ (by rw [keptOf_record]; exact h2)
      (by rw [patchOf_record]; exact hp)]
    simp only [keptOf_record, patchOf_record]
    simp only [World.record, h2]
    split <;> simp_all

/-- A cycle in which the Patch fails: the result and the trace. -/
theorem reconcile_of_patch_failed (c : Controller) (req : Request) (w : World)
    (binding : ResourceBinding) (err : APIError) (hget : c.Get req = .ok binding)
    (hdel : IsZero binding.Meta.DeletionTimestamp = true)
    (hchanged : DeepEqual binding.Spec.GracefulEvictionTasks (keptOf c binding w) = false)
    (hfail : c.Patch (patchOf c binding w) = some err) :
    Reconcile c req w =
      (({ Requeue := true, RequeueAfter := 0 }, some err),
       { clockReads := w.clockReads + 1,
         calls := w.calls ++
          [Call.get req,
           Call.clock w.clockReads (c.Now w.clockReads),
           Call.assess binding.Spec.GracefulEvictionTasks binding.Status.AggregatedStatus
             c.GracefulEvictionTimeout (c.Now w.clockReads),
           Call.patch (patchOf c binding w)] }) := by
  rw [reconcile_of_fetched c req w binding hget hdel]
  rw [syncBinding_of_patch_failed c binding _ err (by rw [keptOf_record]; exact hchanged)
    (by rw [patchOf_record]; exact hfail)]
  simp only [keptOf_record, patchOf_record]
  simp [World.record]

end GracefulEviction

namespace GracefulEviction

/-! ## The controller: failure of the Patch -/

/-- C11: when the Patch fails, with Conflict or any other error, `syncBinding` returns
delay 0 with that error, `Reconcile` returns that error with `Requeue` true and
`RequeueAfter` zero, and `nextRetry` is not called in the cycle. -/
theorem reconcile_patch_failure (c : Controller) (req : Request) (w : World)
    (binding : ResourceBinding) (err : APIError) (hget : c.Get req = .ok binding)
    (hdel : IsZero binding.Meta.DeletionTimestamp = true)
    (hchanged : DeepEqual binding.Spec.GracefulEvictionTasks (keptOf c binding w) = false)
    (hfail : c.Patch (patchOf c binding w) = some err) :
    (syncBinding c binding (w.record (Call.get req))).1 = (0, some err) ∧
    (Reconcile c req w).1 = ({ Requeue := true, RequeueAfter := 0 }, some err) ∧
    issuedBy w.calls (Reconcile c req w).2.calls = [patchOf c binding w] ∧
    retryCalls (callsSince w.calls (Reconcile c req w).2.calls) = [] := by
  have hs := syncBinding_of_patch_failed c binding (w.record (Call.get req)) err
    (by rw [keptOf_record]; exact hchanged) (by rw [patchOf_record]; exact hfail)
  have hr := reconcile_of_patch_failed c req w binding err hget hdel hchanged hfail
  refine ⟨by rw [hs], by rw [hr], ?_, ?_⟩
  · rw [hr]
    simp [issuedBy_append, patchesOf]
  · rw [hr]
    simp [callsSince_append, retryCalls]

/-- C11 at a store that answers the Patch of the expired task with Conflict. -/
theorem reconcile_patch_failure_witness :
    (syncBinding (controllerFailing (bindingWith (some [taskExpired])) .conflict)
      (bindingWith (some [taskExpired])) (World.init.record (Call.get requestNginx))).1 =
        (0, some .conflict) ∧
    (Reconcile (controllerFailing (bindingWith (some [taskExpired])) .conflict)
      requestNginx World.init).1 =
        ({ Requeue := true, RequeueAfter := 0 }, some .conflict) ∧
    issuedBy World.init.calls
      (Reconcile (controllerFailing (bindingWith (some [taskExpired])) .conflict)
        requestNginx World.init).2.calls =
      [patchOf (controllerFailing (bindingWith (some [taskExpired])) .conflict)
        (bindingWith (some [taskExpired])) World.init] ∧
    retryCalls (callsSince World.init.calls
      (Reconcile (controllerFailing (bindingWith (some [taskExpired])) .conflict)
        requestNginx World.init).2.calls) = [] :=
  reconcile_patch_failure (controllerFailing (bindingWith (some [taskExpired])) .conflict)
    requestNginx World.init (bindingWith (some [taskExpired])) .conflict rfl (by decide)
    (by decide) rfl

end GracefulEviction

namespace GracefulEviction

/-! ## The controller: scheduling -/

/-- With a positive epsilon the scheduler never returns a negative delay. -/
theorem nextRetry_nonneg (epsilon timeout now : Int) (kept : GoSlice EvictionTask)
    (heps : 0 < epsilon) : 0 ≤ nextRetry epsilon kept timeout now := by
  rcases hk : kept.toList with _ | ⟨t, ts⟩
  · simp [nextRetry, nextDelay, hk]
  · rw [nextRetry_cons epsilon kept timeout now t ts hk]
    split <;> omega

/-- C12: in a cycle that reaches scheduling without error, `nextRetry` is called once, on
the kept task sequence (the one compared with the current tasks and, on the patched path,
the one written); `Reconcile` returns the empty result when the delay is none (zero) and
`RequeueAfter` equal to the delay otherwise, with a nil error. -/
theorem reconcile_schedules (get : Request → Except APIError ResourceBinding)
    (patch : PatchCall → Option APIError) (timeout : Int) (clock : Nat → Int)
    (epsilon : Int) (req : Request) (w : World) (binding : ResourceBinding)
    (heps : 0 < epsilon) (hget : get req = .ok binding)
    (hdel : IsZero binding.Meta.DeletionTimestamp = true)
    (hok : DeepEqual binding.Spec.GracefulEvictionTasks
        (keptOf (controller get patch timeout clock epsilon) binding w) = true ∨
      patch (patchOf (controller get patch timeout clock epsilon) binding w) = none) :
    retryCalls (callsSince w.calls
      (Reconcile (controller get patch timeout clock epsilon) req w).2.calls) =
      [(keptOf (controller get patch timeout clock epsilon) binding w, timeout,
        clock (w.clockReads + 1))] ∧
    (∀ p ∈ issuedBy w.calls
        (Reconcile (controller get patch timeout clock epsilon) req w).2.calls,
      p.obj.Spec.GracefulEvictionTasks =
        keptOf (controller get patch timeout clock epsilon) binding w) ∧
    (nextRetry epsilon (keptOf (controller get patch timeout clock epsilon) binding w)
        timeout (clock (w.clockReads + 1)) = 0 →
      (Reconcile (controller get patch timeout clock epsilon) req w).1 =
        ({ Requeue := false, RequeueAfter := 0 }, none)) ∧
    (nextRetry epsilon (keptOf (controller get patch timeout clock epsilon) binding w)
        timeout (clock (w.clockReads + 1)) ≠ 0 →
      (Reconcile (controller get patch timeout clock epsilon) req w).1 =
        ({ Requeue := false,
           RequeueAfter := nextRetry epsilon
            (keptOf (controller get patch timeout clock epsilon) binding w) timeout
            (clock (w.clockReads + 1)) }, none)) := by
  obtain ⟨hres, _, hcalls⟩ :=
    reconcile_of_scheduled (controller get patch timeout clock epsilon) req w binding
      hget hdel hok
  have hnn := nextRetry_nonneg epsilon timeout (clock (w.clockReads + 1))
    (keptOf (controller get patch timeout clock epsilon) binding w) heps
  refine ⟨?_, ?_, ?_, ?_⟩
  · rw [hcalls, callsSince_append]
    split <;> simp [retryCalls, controller]
  · intro p hp
    rw [hcalls, issuedBy_append] at hp
    split at hp
    · simp [patchesOf] at hp
    · simp only [patchesOf, List.append_assoc, List.cons_append, List.nil_append,
        List.filterMap_cons, List.filterMap_nil, List.mem_singleton] at hp
      subst hp
      rfl
  · intro h0
    rw [hres]
    have : ¬ (controller get patch timeout clock epsilon).nextRetry
        (keptOf (controller get patch timeout clock epsilon) binding w)
        (controller get patch timeout clock epsilon).GracefulEvictionTimeout
        ((controller get patch timeout clock epsilon).Now (w.clockReads + 1)) > 0 := by
      show ¬ nextRetry epsilon _ timeout (clock (w.clockReads + 1)) > 0
      omega
    rw [if_neg this]
  · intro hne
    rw [hres]
    have : (controller get patch timeout clock epsilon).nextRetry
        (keptOf (controller get patch timeout clock epsilon) binding w)
        (controller get patch timeout clock epsilon).GracefulEvictionTimeout
        ((controller get patch timeout clock epsilon).Now (w.clockReads + 1)) > 0 := by
      show nextRetry epsilon _ timeout (clock (w.clockReads + 1)) > 0
      omega
    rw [if_pos this]
    rfl

/-- C12 at a binding whose only task is kept until instant 220: the cycle asks to be
run again after 90. -/
theorem reconcile_schedules_witness :
    retryCalls (callsSince World.init.calls
      (Reconcile (controller (fun _ => .ok (bindingWith (some [taskM1]))) (fun _ => none)
        120 (fun _ => 130) 1) requestNginx World.init).2.calls) =
      [(keptOf (controller (fun _ => .ok (bindingWith (some [taskM1]))) (fun _ => none)
        120 (fun _ => 130) 1) (bindingWith (some [taskM1])) World.init, 120,
        (fun _ => 130) (World.init.clockReads + 1))] ∧
    (∀ p ∈ issuedBy World.init.calls
        (Reconcile (controller (fun _ => .ok (bindingWith (some [taskM1]))) (fun _ => none)
          120 (fun _ => 130) 1) requestNginx World.init).2.calls,
      p.obj.Spec.GracefulEvictionTasks =
        keptOf (controller (fun _ => .ok (bindingWith (some [taskM1]))) (fun _ => none)
          120 (fun _ => 130) 1) (bindingWith (some [taskM1])) World.init) ∧
    (nextRetry 1 (keptOf (controller (fun _ => .ok (bindingWith (some [taskM1])))
        (fun _ => none) 120 (fun _ => 130) 1) (bindingWith (some [taskM1])) World.init)
        120 ((fun _ => 130) (World.init.clockReads + 1)) = 0 →
      (Reconcile (controller (fun _ => .ok (bindingWith (some [taskM1]))) (fun _ => none)
        120 (fun _ => 130) 1) requestNginx World.init).1 =
        ({ Requeue := false, RequeueAfter := 0 }, none)) ∧
    (nextRetry 1 (keptOf (controller (fun _ => .ok (bindingWith (some [taskM1])))
        (fun _ => none) 120 (fun _ => 130) 1) (bindingWith (some [taskM1])) World.init)
        120 ((fun _ => 130) (World.init.clockReads + 1)) ≠ 0 →
      (Reconcile (controller (fun _ => .ok (bindingWith (some [taskM1]))) (fun _ => none)
        120 (fun _ => 130) 1) requestNginx World.init).1 =
        ({ Requeue := false,
           RequeueAfter := nextRetry 1
            (keptOf (controller (fun _ => .ok (bindingWith (some [taskM1])))
              (fun _ => none) 120 (fun _ => 130) 1) (bindingWith (some [taskM1]))
              World.init) 120 ((fun _ => 130) (World.init.clockReads + 1)) }, none)) :=
  reconcile_schedules (fun _ => .ok (bindingWith (some [taskM1]))) (fun _ => none) 120
    (fun _ => 130) 1 requestNginx World.init (bindingWith (some [taskM1])) (by decide) rfl
    (by decide) (Or.inl (by decide))

/-- The cycle of the witness of C12 returns `RequeueAfter` 90. -/
theorem reconcile_requeues_after_90 :
    (Reconcile (controllerOver (bindingWith (some [taskM1]))) requestNginx World.init).1 =
      ({ Requeue := false, RequeueAfter := 90 }, none) := by
  decide

end GracefulEviction

namespace GracefulEviction

/-! ## The controller: the clock -/

/-- C13, as stated, fails: with a clock that advances between two readings the cycle
reads it twice, the assessor is given instant 130 and `nextRetry` instant 131, on the
unchanged path (task kept) and on the patched path (task expired). -/
theorem reconcile_reads_clock_twice :
    (Reconcile (controllerTicking (bindingWith (some [taskM1]))) requestNginx
      World.init).2.clockReads = 2 ∧
    assessInstants (Reconcile (controllerTicking (bindingWith (some [taskM1])))
      requestNginx World.init).2.calls = [130] ∧
    retryInstants (Reconcile (controllerTicking (bindingWith (some [taskM1])))
      requestNginx World.init).2.calls = [131] ∧
    issuedBy World.init.calls (Reconcile (controllerTicking (bindingWith (some [taskM1])))
      requestNginx World.init).2.calls = [] ∧
    assessInstants (Reconcile (controllerTicking (bindingWith (some [taskExpired])))
      requestNginx World.init).2.calls = [130] ∧
    retryInstants (Reconcile (controllerTicking (bindingWith (some [taskExpired])))
      requestNginx World.init).2.calls = [131] ∧
    issuedBy World.init.calls
      (Reconcile (controllerTicking (bindingWith (some [taskExpired])))
        requestNginx World.init).2.calls = [patchOfExpired] := by
  decide

/-- C13, amended: a cycle that reaches scheduling reads the clock twice; the assessor is
given the first reading and `nextRetry` the second, taken after the comparison and, on
the patched path, after the Patch. -/
theorem reconcile_clock_readings (c : Controller) (req : Request) (w : World)
    (binding : ResourceBinding) (hget : c.Get req = .ok binding)
    (hdel : IsZero binding.Meta.DeletionTimestamp = true)
    (hok : DeepEqual binding.Spec.GracefulEvictionTasks (keptOf c binding w) = true ∨
      c.Patch (patchOf c binding w) = none) :
    (Reconcile c req w).2.clockReads = w.clockReads + 2 ∧
    assessInstants (callsSince w.calls (Reconcile c req w).2.calls) =
      [c.Now w.clockReads] ∧
    retryInstants (callsSince w.calls (Reconcile c req w).2.calls) =
      [c.Now (w.clockReads + 1)] := by
  obtain ⟨_, hreads, hcalls⟩ := reconcile_of_scheduled c req w binding hget hdel hok
  refine ⟨hreads, ?_, ?_⟩
  · rw [hcalls, callsSince_append]
    split <;> simp [assessInstants]
  · rw [hcalls, callsSince_append]
    split <;> simp [retryInstants, retryCalls]

/-- The amended C13 at the advancing clock, on the unchanged path. -/
theorem reconcile_clock_readings_witness :
    (Reconcile (controllerTicking (bindingWith (some [taskM1]))) requestNginx
      World.init).2.clockReads = World.init.clockReads + 2 ∧
    assessInstants (callsSince World.init.calls
      (Reconcile (controllerTicking (bindingWith (some [taskM1]))) requestNginx
        World.init).2.calls) =
      [(controllerTicking (bindingWith (some [taskM1]))).Now World.init.clockReads] ∧
    retryInstants (callsSince World.init.calls
      (Reconcile (controllerTicking (bindingWith (some [taskM1]))) requestNginx
        World.init).2.calls) =
      [(controllerTicking (bindingWith (some [taskM1]))).Now (World.init.clockReads + 1)] :=
  reconcile_clock_readings (controllerTicking (bindingWith (some [taskM1]))) requestNginx
    World.init (bindingWith (some [taskM1])) rfl (by decide) (Or.inl (by decide))

end GracefulEviction

namespace GracefulEviction

/-! ## The controller: all paths of one cycle -/

/-- A Get that fails: the cycle ends after the Get. -/
theorem reconcile_of_get_error (c : Controller) (req : Request) (w : World)
    (err : APIError) (hget : c.Get req = .error err) :
    Reconcile c req w =
      (if IsNotFound err then ({ Requeue := false, RequeueAfter := 0 }, none)
       else ({ Requeue := true, RequeueAfter := 0 }, some err),
       { clockReads := w.clockReads, calls := w.calls ++ [Call.get req] }) := by
  simp only [Reconcile, hget, World.record]
  split <;> rfl

/-- A binding marked for deletion: the cycle ends after the Get. -/
theorem reconcile_of_deleted (c : Controller) (req : Request) (w : World)
    (binding : ResourceBinding) (hget : c.Get req = .ok binding)
    (hdel : IsZero binding.Meta.DeletionTimestamp = false) :
    Reconcile c req w =
      (({ Requeue := false, RequeueAfter := 0 }, none),
       { clockReads := w.clockReads, calls := w.calls ++ [Call.get req] }) := by
  simp [Reconcile, hget, hdel, World.record]

/-- The patches issued on the scheduled path. -/
theorem issuedBy_of_scheduled (c : Controller) (req : Request) (w : World)
    (binding : ResourceBinding) (hget : c.Get req = .ok binding)
    (hdel : IsZero binding.Meta.DeletionTimestamp = true)
    (hok : DeepEqual binding.Spec.GracefulEvictionTasks (keptOf c binding w) = true ∨
      c.Patch (patchOf c binding w) = none) :
    issuedBy w.calls (Reconcile c req w).2.calls =
      (if DeepEqual binding.Spec.GracefulEvictionTasks (keptOf c binding w) then []
       else [patchOf c binding w]) ∧
    storeCalls (callsSince w.calls (Reconcile c req w).2.calls) =
      Call.get req ::
        (if DeepEqual binding.Spec.GracefulEvictionTasks (keptOf c binding w) then []
         else [Call.patch (patchOf c binding w)]) := by
  obtain ⟨_, _, hcalls⟩ := reconcile_of_scheduled c req w binding hget hdel hok
  rw [hcalls, issuedBy_append, callsSince_append]
  split <;> simp [patchesOf, storeCalls]

/-- C14: on every path of one `Reconcile` call at most one Patch is issued; a Patch that
is issued is taken from the binding the Get returned and submits an object with that
binding's metadata (name, namespace); and the calls to the store in the cycle are the Get
followed by the Patch calls, nothing else. -/
theorem reconcile_at_most_one_patch (c : Controller) (req : Request) (w : World) :
    (issuedBy w.calls (Reconcile c req w).2.calls).length ≤ 1 ∧
    (∀ p ∈ issuedBy w.calls (Reconcile c req w).2.calls,
      ∃ binding, c.Get req = .ok binding ∧ p.patch.base = binding ∧
        p.obj.Meta = binding.Meta) ∧
    storeCalls (callsSince w.calls (Reconcile c req w).2.calls) =
      Call.get req :: (issuedBy w.calls (Reconcile c req w).2.calls).map Call.patch := by
  rcases hget : c.Get req with err | binding
  · rw [reconcile_of_get_error c req w err hget]
    simp [issuedBy_append, callsSince_append, patchesOf, storeCalls]
  · by_cases hdel : IsZero binding.Meta.DeletionTimestamp = true
    · by_cases hok : DeepEqual binding.Spec.GracefulEvictionTasks (keptOf c binding w) = true ∨
          c.Patch (patchOf c binding w) = none
      · obtain ⟨hi, hs⟩ := issuedBy_of_scheduled c req w binding hget hdel hok
        rw [hi, hs]
        split
        · simp
        · simp [patchOf, MergeFrom]
      · have hchanged :
            DeepEqual binding.Spec.GracefulEvictionTasks (keptOf c binding w) = false := by
          cases h : DeepEqual binding.Spec.GracefulEvictionTasks (keptOf c binding w)
          · rfl
          · exact absurd (Or.inl h) hok
        rcases hp : c.Patch (patchOf c binding w) with _ | err
        · exact absurd (Or.inr hp) hok
        · rw [reconcile_of_patch_failed c req w binding err hget hdel hchanged hp]
          simp [issuedBy_append, callsSince_append, patchesOf, storeCalls, patchOf,
            MergeFrom]
    · have hdel2 : IsZero binding.Meta.DeletionTimestamp = false := by simpa using hdel
      rw [reconcile_of_deleted c req w binding hget hdel2]
      simp [issuedBy_append, callsSince_append, patchesOf, storeCalls]

end GracefulEviction

namespace GracefulEviction

/-! ## The controller: errors and the result -/

/-- C15: `Reconcile` returns the error `e` exactly when the Get fails with `e` and `e` is
not NotFound, or a Patch issued in the cycle fails with `e`; with an error the result is
`Requeue` true and `RequeueAfter` zero, and without one `Requeue` is false.  The assessor
and the scheduler return values, not errors, so no other error arises. -/
theorem reconcile_error_iff (c : Controller) (req : Request) (w : World) (e : APIError) :
    ((Reconcile c req w).1.2 = some e ↔
      (c.Get req = .error e ∧ IsNotFound e = false) ∨
      (∃ p ∈ issuedBy w.calls (Reconcile c req w).2.calls, c.Patch p = some e)) ∧
    ((Reconcile c req w).1.2 ≠ none →
      (Reconcile c req w).1.1 = { Requeue := true, RequeueAfter := 0 }) ∧
    ((Reconcile c req w).1.2 = none → (Reconcile c req w).1.1.Requeue = false) := by
  rcases hget : c.Get req with err | binding
  · rw [reconcile_of_get_error c req w err hget]
    cases hnf : IsNotFound err
    · simp only [issuedBy_append, patchesOf, List.filterMap_cons, List.filterMap_nil,
        List.not_mem_nil, false_and, exists_false, or_false, Bool.false_eq_true, if_false]
      refine ⟨⟨?_, ?_⟩, ?_, ?_⟩
      · intro h
        have : err = e := by simpa using h
        subst this
        exact ⟨rfl, hnf⟩
      · intro h
        have : err = e := by simpa using h.1
        subst this
        rfl
      · intro _; trivial
      · intro h; simp at h
    · simp only [issuedBy_append, patchesOf, List.filterMap_cons, List.filterMap_nil,
        List.not_mem_nil, false_and, exists_false, or_false, if_true]
      refine ⟨⟨?_, ?_⟩, ?_, ?_⟩
      · intro h; simp at h
      · intro h
        have : err = e := by simpa using h.1
        subst this
        rw [hnf] at h
        simp at h
      · intro h; simp at h
      · intro _; trivial
  · by_cases hdel : IsZero binding.Meta.DeletionTimestamp = true
    · by_cases hok : DeepEqual binding.Spec.GracefulEvictionTasks (keptOf c binding w) = true ∨
          c.Patch (patchOf c binding w) = none
      · obtain ⟨hres, _, _⟩ := reconcile_of_scheduled c req w binding hget hdel hok
        obtain ⟨hi, _⟩ := issuedBy_of_scheduled c req w binding hget hdel hok
        have hnone : (Reconcile c req w).1.2 = none := by
          rw [hres]; split <;> rfl
        have hrq : (Reconcile c req w).1.1.Requeue = false := by
          rw [hres]; split <;> rfl
        refine ⟨⟨?_, ?_⟩, ?_, ?_⟩
        · intro h; rw [hnone] at h; simp at h
        · intro h
          rcases h with ⟨h, _⟩ | ⟨p, hp, hpe⟩
          · simp at h
          · rw [hi] at hp
            split at hp
            · simp at hp
            · rename_i hne
              simp only [List.mem_singleton] at hp
              subst hp
              rcases hok with h1 | h1
              · exact absurd h1 hne
              · rw [h1] at hpe; simp at hpe
        · intro h; exact absurd hnone h
        · intro _; exact hrq
      · have hchanged :
            DeepEqual binding.Spec.GracefulEvictionTasks (keptOf c binding w) = false := by
          cases h : DeepEqual binding.Spec.GracefulEvictionTasks (keptOf c binding w)
          · rfl
          · exact absurd (Or.inl h) hok
        rcases hp : c.Patch (patchOf c binding w) with _ | err
        · exact absurd (Or.inr hp) hok
        · rw [reconcile_of_patch_failed c req w binding err hget hdel hchanged hp]
          simp only [issuedBy_append, patchesOf, List.filterMap_cons, List.filterMap_nil,
            List.mem_singleton]
          refine ⟨⟨?_, ?_⟩, ?_, ?_⟩
          · intro h
            have : err = e := by simpa using h
            subst this
            exact Or.inr ⟨_, rfl, hp⟩
          · intro h
            rcases h with ⟨h, _⟩ | ⟨p, hpm, hpe⟩
            · simp at h
            · subst hpm
              rw [hp] at hpe
              exact hpe
          · intro _; trivial
          · intro h; simp at h
    · have hdel2 : IsZero binding.Meta.DeletionTimestamp = false := by simpa using hdel
      rw [reconcile_of_deleted c req w binding hget hdel2]
      simp [issuedBy_append, patchesOf]

end GracefulEviction

namespace GracefulEviction

/-- The answer of `syncBinding` on a path that reaches scheduling. -/
theorem syncBinding_of_scheduled (c : Controller) (binding : ResourceBinding) (w : World)
    (hok : DeepEqual binding.Spec.GracefulEvictionTasks (keptOf c binding w) = true ∨
      c.Patch (patchOf c binding w) = none) :
    (syncBinding c binding w).1 =
      (c.nextRetry (keptOf c binding w) c.GracefulEvictionTimeout
        (c.Now (w.clockReads + 1)), none) := by
  by_cases h : DeepEqual binding.Spec.GracefulEvictionTasks (keptOf c binding w) = true
  · rw [syncBinding_of_unchanged c binding w h]
  · have h2 : DeepEqual binding.Spec.GracefulEvictionTasks (keptOf c binding w) = false := by
      simpa using h
    rcases hok with h1 | h1
    · exact absurd h1 h
    · rw [syncBinding_of_patched c binding w h2 h1]

/-- C16: when `Reconcile` returns a nil error, `Requeue` is false and `RequeueAfter` is
not negative; after `syncBinding` has returned the delay `d`, which is the value of
`nextRetry`, the result is `RequeueAfter = d` when `d` is strictly positive and the empty
result when `d` is zero or negative, whatever tasks are kept; on the paths that do not
reach `syncBinding` the result is empty. -/
theorem reconcile_nil_error_result (c : Controller) (req : Request) (w : World)
    (hnil : (Reconcile c req w).1.2 = none) :
    (Reconcile c req w).1.1.Requeue = false ∧
    0 ≤ (Reconcile c req w).1.1.RequeueAfter ∧
    (∀ binding, c.Get req = .ok binding →
      IsZero binding.Meta.DeletionTimestamp = true →
      (syncBinding c binding (w.record (Call.get req))).1.1 =
        c.nextRetry (keptOf c binding w) c.GracefulEvictionTimeout
          (c.Now (w.clockReads + 1)) ∧
      (0 < (syncBinding c binding (w.record (Call.get req))).1.1 →
        (Reconcile c req w).1.1 =
          { Requeue := false,
            RequeueAfter := (syncBinding c binding (w.record (Call.get req))).1.1 }) ∧
      ((syncBinding c binding (w.record (Call.get req))).1.1 ≤ 0 →
        (Reconcile c req w).1.1 = { Requeue := false, RequeueAfter := 0 })) ∧
    ((∀ binding, c.Get req = .ok binding →
        IsZero binding.Meta.DeletionTimestamp = false) →
      (Reconcile c req w).1.1 = { Requeue := false, RequeueAfter := 0 }) := by
  rcases hget : c.Get req with err | binding
  · rw [reconcile_of_get_error c req w err hget] at hnil ⊢
    cases hnf : IsNotFound err
    · rw [hnf] at hnil; simp at hnil
    · simp
  · by_cases hdel : IsZero binding.Meta.DeletionTimestamp = true
    · by_cases hok : DeepEqual binding.Spec.GracefulEvictionTasks (keptOf c binding w) = true ∨
          c.Patch (patchOf c binding w) = none
      · obtain ⟨hres, _, _⟩ := reconcile_of_scheduled c req w binding hget hdel hok
        have hs := syncBinding_of_scheduled c binding (w.record (Call.get req))
          (by rw [keptOf_record, patchOf_record]; exact hok)
        rw [keptOf_record] at hs
        have hs1 : (syncBinding c binding (w.record (Call.get req))).1.1 =
            c.nextRetry (keptOf c binding w) c.GracefulEvictionTimeout
              (c.Now (w.clockReads + 1)) := by rw [hs]; rfl
        refine ⟨?_, ?_, ?_, ?_⟩
        · rw [hres]; split <;> rfl
        · rw [hres]
          split
          · rename_i hpos
            exact le_of_lt hpos
          · exact le_refl _
        · intro b hb hbdel
          have hbb : b = binding := by
            have := hb
            simp at this
            exact this.symm
          subst hbb
          refine ⟨hs1, ?_, ?_⟩
          · intro hpos
            rw [hs1] at hpos
            rw [hres, if_pos hpos, hs1]
          · intro hle
            rw [hs1] at hle
            rw [hres, if_neg (not_lt.mpr hle)]
        · intro hall
          have := hall binding rfl
          rw [hdel] at this
          simp at this
      · have hchanged :
            DeepEqual binding.Spec.GracefulEvictionTasks (keptOf c binding w) = false := by
          cases h : DeepEqual binding.Spec.GracefulEvictionTasks (keptOf c binding w)
          · rfl
          · exact absurd (Or.inl h) hok
        rcases hp : c.Patch (patchOf c binding w) with _ | err
        · exact absurd (Or.inr hp) hok
        · rw [reconcile_of_patch_failed c req w binding err hget hdel hchanged hp] at hnil
          simp at hnil
    · have hdel2 : IsZero binding.Meta.DeletionTimestamp = false := by simpa using hdel
      rw [reconcile_of_deleted c req w binding hget hdel2]
      refine ⟨rfl, le_refl _, ?_, ?_⟩
      · intro b hb hbdel
        have hbb : b = binding := by
          have := hb
          simp at this
          exact this.symm
        subst hbb
        rw [hdel2] at hbdel
        simp at hbdel
      · intro _; rfl

end GracefulEviction

namespace GracefulEviction

/-- C16 at a binding whose only task is kept: nil error, and the delay 90 of `nextRetry`
is the `RequeueAfter` of the result. -/
theorem reconcile_nil_error_result_witness :
    (Reconcile (controllerOver (bindingWith (some [taskM1]))) requestNginx
      World.init).1.1.Requeue = false ∧
    0 ≤ (Reconcile (controllerOver (bindingWith (some [taskM1]))) requestNginx
      World.init).1.1.RequeueAfter ∧
    (∀ binding, (controllerOver (bindingWith (some [taskM1]))).Get requestNginx =
        .ok binding →
      IsZero binding.Meta.DeletionTimestamp = true →
      (syncBinding (controllerOver (bindingWith (some [taskM1]))) binding
        (World.init.record (Call.get requestNginx))).1.1 =
        (controllerOver (bindingWith (some [taskM1]))).nextRetry
          (keptOf (controllerOver (bindingWith (some [taskM1]))) binding World.init)
          (controllerOver (bindingWith (some [taskM1]))).GracefulEvictionTimeout
          ((controllerOver (bindingWith (some [taskM1]))).Now
            (World.init.clockReads + 1)) ∧
      (0 < (syncBinding (controllerOver (bindingWith (some [taskM1]))) binding
          (World.init.record (Call.get requestNginx))).1.1 →
        (Reconcile (controllerOver (bindingWith (some [taskM1]))) requestNginx
          World.init).1.1 =
          { Requeue := false,
            RequeueAfter := (syncBinding (controllerOver (bindingWith (some [taskM1])))
              binding (World.init.record (Call.get requestNginx))).1.1 }) ∧
      ((syncBinding (controllerOver (bindingWith (some [taskM1]))) binding
          (World.init.record (Call.get requestNginx))).1.1 ≤ 0 →
        (Reconcile (controllerOver (bindingWith (some [taskM1]))) requestNginx
          World.init).1.1 = { Requeue := false, RequeueAfter := 0 })) ∧
    ((∀ binding, (controllerOver (bindingWith (some [taskM1]))).Get requestNginx =
        .ok binding →
        IsZero binding.Meta.DeletionTimestamp = false) →
      (Reconcile (controllerOver (bindingWith (some [taskM1]))) requestNginx
        World.init).1.1 = { Requeue := false, RequeueAfter := 0 }) :=
  reconcile_nil_error_result (controllerOver (bindingWith (some [taskM1]))) requestNginx
    World.init (by decide)

end GracefulEviction

namespace Estimator

/-! ## The estimator addon: status -/

theorem length_eq_zero_iff (s : String) : (s.length == 0) = true ↔ s = "" := by
  rw [beq_iff_eq, String.length, List.length_eq_zero, String.ext_iff]

/-- The answer of `status` for a cluster that is named and whose deployment is found. -/
theorem status_of_found (generateName : String → String) (opts : CommandAddonsListOption)
    (d : DeploymentStatus) (hlen : (opts.Cluster.length == 0) = false)
    (hg : opts.Get opts.Namespace (generateName opts.Cluster) = .ok d) :
    status generateName opts =
      if d.Replicas = d.ReadyReplicas ∧ d.Replicas = d.AvailableReplicas then
        { status := .Enabled, err := none,
          lookups := [(opts.Namespace, generateName opts.Cluster)] }
      else
        { status := .Unhealthy, err := none,
          lookups := [(opts.Namespace, generateName opts.Cluster)] } := by
  simp only [status, hlen, hg]
  by_cases h1 : d.Replicas = d.ReadyReplicas <;>
    by_cases h2 : d.Replicas = d.AvailableReplicas <;> simp [h1, h2]

/-- The answer of `status` for a cluster that is named and whose lookup fails. -/
theorem status_of_lookup_error (generateName : String → String)
    (opts : CommandAddonsListOption) (e : LookupError)
    (hlen : (opts.Cluster.length == 0) = false)
    (hg : opts.Get opts.Namespace (generateName opts.Cluster) = .error e) :
    status generateName opts =
      if IsNotFound e then
        { status := .Disabled, err := none,
          lookups := [(opts.Namespace, generateName opts.Cluster)] }
      else
        { status := .Unknown, err := some e,
          lookups := [(opts.Namespace, generateName opts.Cluster)] } := by
  simp only [status, hlen, hg]
  rfl

/-- C17: `status` is a total decision table.  An empty cluster name gives Unknown with no
error and no lookup.  Otherwise one lookup is made, of the estimator deployment of the
cluster in the namespace of the options: NotFound gives Disabled with no error, any other
error gives Unknown with that error, a found deployment gives Unhealthy when `Replicas`
differs from `ReadyReplicas` or from `AvailableReplicas`, and Enabled when the three are
equal.  Enabled is returned in that case only. -/
theorem status_decision_table (generateName : String → String)
    (opts : CommandAddonsListOption) :
    (opts.Cluster = "" →
      status generateName opts = { status := .Unknown, err := none, lookups := [] }) ∧
    (opts.Cluster ≠ "" →
      (status generateName opts).lookups = [(opts.Namespace, generateName opts.Cluster)] ∧
      (∀ e, opts.Get opts.Namespace (generateName opts.Cluster) = .error e →
        IsNotFound e = true →
        (status generateName opts).status = .Disabled ∧
          (status generateName opts).err = none) ∧
      (∀ e, opts.Get opts.Namespace (generateName opts.Cluster) = .error e →
        IsNotFound e = false →
        (status generateName opts).status = .Unknown ∧
          (status generateName opts).err = some e) ∧
      (∀ d, opts.Get opts.Namespace (generateName opts.Cluster) = .ok d →
        (d.Replicas ≠ d.ReadyReplicas ∨ d.Replicas ≠ d.AvailableReplicas) →
        (status generateName opts).status = .Unhealthy ∧
          (status generateName opts).err = none) ∧
      (∀ d, opts.Get opts.Namespace (generateName opts.Cluster) = .ok d →
        d.Replicas = d.ReadyReplicas → d.Replicas = d.AvailableReplicas →
        (status generateName opts).status = .Enabled ∧
          (status generateName opts).err = none)) ∧
    ((status generateName opts).status = .Enabled ↔
      opts.Cluster ≠ "" ∧
        ∃ d, opts.Get opts.Namespace (generateName opts.Cluster) = .ok d ∧
          d.Replicas = d.ReadyReplicas ∧ d.Replicas = d.AvailableReplicas) := by
  by_cases hc : opts.Cluster = ""
  · have hlen : (opts.Cluster.length == 0) = true := (length_eq_zero_iff _).mpr hc
    have hs : status generateName opts =
        { status := .Unknown, err := none, lookups := [] } := by
      simp [status, hlen]
    refine ⟨fun _ => hs, fun h => absurd hc h, ?_⟩
    rw [hs]
    simp [hc]
  · have hlen : (opts.Cluster.length == 0) = false := by
      cases h : (opts.Cluster.length == 0)
      · rfl
      · exact absurd ((length_eq_zero_iff _).mp h) hc
    rcases hg : opts.Get opts.Namespace (generateName opts.Cluster) with e | d
    · rw [status_of_lookup_error generateName opts e hlen hg]
      cases hnf : IsNotFound e <;> simp [hc, hnf]
    · rw [status_of_found generateName opts d hlen hg]
      by_cases h : d.Replicas = d.ReadyReplicas ∧ d.Replicas = d.AvailableReplicas
      · rw [if_pos h]
        refine ⟨fun h0 => absurd h0 hc, fun _ => ⟨rfl, ?_, ?_, ?_, ?_⟩, ?_⟩
        · intro e he; simp at he
        · intro e he; simp at he
        · intro d2 hd2 hne
          have : d = d2 := by simpa using hd2
          subst this
          rcases hne with h1 | h1
          · exact absurd h.1 h1
          · exact absurd h.2 h1
        · intro _ _ _ _; exact ⟨rfl, rfl⟩
        · constructor
          · intro _; exact ⟨hc, d, rfl, h.1, h.2⟩
          · intro _; rfl
      · rw [if_neg h]
        refine ⟨fun h0 => absurd h0 hc, fun _ => ⟨rfl, ?_, ?_, ?_, ?_⟩, ?_⟩
        · intro e he; simp at he
        · intro e he; simp at he
        · intro _ _ _; exact ⟨rfl, rfl⟩
        · intro d2 hd2 h1 h2
          have : d = d2 := by simpa using hd2
          subst this
          exact absurd ⟨h1, h2⟩ h
        · constructor
          · intro h0; simp at h0
          · rintro ⟨_, d2, hd2, h1, h2⟩
            have : d = d2 := by simpa using hd2
            subst this
            exact absurd ⟨h1, h2⟩ h

end Estimator

namespace Estimator

/-- The rows of the decision table at concrete options: no cluster name; deployment not
found; lookup refused; replicas 3/2/3; replicas 0/0/0; replicas 2/2/2. -/
theorem status_examples :
    status estimatorName (optionsFor "" (.ok ⟨1, 1, 1⟩)) =
      { status := .Unknown, err := none, lookups := [] } ∧
    status estimatorName (optionsFor "member1" (.error .notFound)) =
      { status := .Disabled, err := none,
        lookups := [("karmada-system", "karmada-scheduler-estimator-member1")] } ∧
    status estimatorName (optionsFor "member1" (.error (.other "forbidden"))) =
      { status := .Unknown, err := some (.other "forbidden"),
        lookups := [("karmada-system", "karmada-scheduler-estimator-member1")] } ∧
    status estimatorName (optionsFor "member1" (.ok ⟨3, 2, 3⟩)) =
      { status := .Unhealthy, err := none,
        lookups := [("karmada-system", "karmada-scheduler-estimator-member1")] } ∧
    status estimatorName (optionsFor "member1" (.ok ⟨0, 0, 0⟩)) =
      { status := .Enabled, err := none,
        lookups := [("karmada-system", "karmada-scheduler-estimator-member1")] } ∧
    status estimatorName (optionsFor "member1" (.ok ⟨2, 2, 2⟩)) =
      { status := .Enabled, err := none,
        lookups := [("karmada-system", "karmada-scheduler-estimator-member1")] } := by
  decide

end Estimator

namespace GracefulEviction

/-! ## The assessor in the cycle: expired tasks are removed -/

/-- A task at or past its deadline is in no output of the assessor. -/
theorem expired_not_assessed (t : EvictionTask) (created timeout now : Int)
    (hcreated : t.createdAt = some created)
    (hexpired : now ≥ created + t.gracePeriod.getD timeout)
    (spec : ResourceBindingSpec) (status : List AggregatedStatusItem) :
    t ∉ (assessEvictionTasks spec status timeout now).toList := by
  intro hmem
  rw [assessEvictionTasks_toList] at hmem
  have hk := (assess_kept _ _ _ _ _ hmem).1
  simp only [deadline, hcreated, effectiveGrace] at hk
  omega

/-- A cycle of `Reconcile` whose kept tasks differ from the current ones issues the one
Patch of `syncBinding`, whether the store accepts it or not. -/
theorem issuedBy_reconcile_of_changed (c : Controller) (req : Request) (w : World)
    (binding : ResourceBinding) (hget : c.Get req = .ok binding)
    (hdel : IsZero binding.Meta.DeletionTimestamp = true)
    (hchanged : DeepEqual binding.Spec.GracefulEvictionTasks (keptOf c binding w) = false) :
    issuedBy w.calls (Reconcile c req w).2.calls = [patchOf c binding w] := by
  rcases hp : c.Patch (patchOf c binding w) with _ | err
  · rw [(issuedBy_of_scheduled c req w binding hget hdel (Or.inr hp)).1, hchanged]
    simp
  · rw [reconcile_of_patch_failed c req w binding err hget hdel hchanged hp]
    simp [issuedBy_append, patchesOf]

/-- C4: a task whose deadline `createdAt + (gracePeriod if set, else timeout)` is not
after `now` is not in the sequence `assessEvictionTasks` returns, whatever the aggregated
status, and is in no object that `syncBinding` submits in a Patch of a cycle that reads
`now` from the clock.  For a binding that holds such a task the cycle does issue a Patch,
exactly one, in `syncBinding` and so in `Reconcile`, and the object it submits is the
binding without that task. -/
theorem expired_task_dropped (t : EvictionTask) (created timeout now : Int)
    (hcreated : t.createdAt = some created)
    (hexpired : now ≥ created + t.gracePeriod.getD timeout) :
    (∀ (spec : ResourceBindingSpec) (status : List AggregatedStatusItem),
      t ∉ (assessEvictionTasks spec status timeout now).toList) ∧
    (∀ (get : Request → Except APIError ResourceBinding)
      (patch : PatchCall → Option APIError) (clock : Nat → Int) (epsilon : Int)
      (binding : ResourceBinding) (w : World) (p : PatchCall),
      clock w.clockReads = now →
      p ∈ issuedBy w.calls
        (syncBinding (controller get patch timeout clock epsilon) binding w).2.calls →
      t ∉ p.obj.Spec.GracefulEvictionTasks.toList) ∧
    (∀ (get : Request → Except APIError ResourceBinding)
      (patch : PatchCall → Option APIError) (clock : Nat → Int) (epsilon : Int)
      (binding : ResourceBinding) (w : World),
      clock w.clockReads = now →
      t ∈ binding.Spec.GracefulEvictionTasks.toList →
      issuedBy w.calls
        (syncBinding (controller get patch timeout clock epsilon) binding w).2.calls =
        [patchOf (controller get patch timeout clock epsilon) binding w] ∧
      t ∉ (patchOf (controller get patch timeout clock epsilon) binding
        w).obj.Spec.GracefulEvictionTasks.toList ∧
      (patchOf (controller get patch timeout clock epsilon) binding w).obj =
        { binding with
          Spec := { binding.Spec with
            GracefulEvictionTasks :=
              assessEvictionTasks binding.Spec binding.Status.AggregatedStatus
                timeout now } }) ∧
    (∀ (get : Request → Except APIError ResourceBinding)
      (patch : PatchCall → Option APIError) (clock : Nat → Int) (epsilon : Int)
      (req : Request) (binding : ResourceBinding) (w : World),
      get req = .ok binding →
      IsZero binding.Meta.DeletionTimestamp = true →
      clock w.clockReads = now →
      t ∈ binding.Spec.GracefulEvictionTasks.toList →
      issuedBy w.calls
        (Reconcile (controller get patch timeout clock epsilon) req w).2.calls =
        [patchOf (controller get patch timeout clock epsilon) binding w]) := by
  have key := expired_not_assessed t created timeout now hcreated hexpired
  have kept_eq : ∀ (get : Request → Except APIError ResourceBinding)
      (patch : PatchCall → Option APIError) (clock : Nat → Int) (epsilon : Int)
      (binding : ResourceBinding) (w : World), clock w.clockReads = now →
      keptOf (controller get patch timeout clock epsilon) binding w =
        assessEvictionTasks binding.Spec binding.Status.AggregatedStatus timeout now := by
    intro get patch clock epsilon binding w hclock
    simp only [keptOf, controller, hclock]
  have changed : ∀ (get : Request → Except APIError ResourceBinding)
      (patch : PatchCall → Option APIError) (clock : Nat → Int) (epsilon : Int)
      (binding : ResourceBinding) (w : World), clock w.clockReads = now →
      t ∈ binding.Spec.GracefulEvictionTasks.toList →
      DeepEqual binding.Spec.GracefulEvictionTasks
        (keptOf (controller get patch timeout clock epsilon) binding w) = false := by
    intro get patch clock epsilon binding w hclock hheld
    cases h : DeepEqual binding.Spec.GracefulEvictionTasks
      (keptOf (controller get patch timeout clock epsilon) binding w)
    · rfl
    · exfalso
      have heq := (deepEqual_iff _ _).mp h
      rw [kept_eq get patch clock epsilon binding w hclock] at heq
      rw [heq] at hheld
      exact key _ _ hheld
  refine ⟨key, ?_, ?_, ?_⟩
  · intro get patch clock epsilon binding w p hclock hp
    have hf := issued_patch_tasks _ binding w p hp
    rw [hf]
    simp only [controller, hclock]
    exact key _ _
  · intro get patch clock epsilon binding w hclock hheld
    have hch := changed get patch clock epsilon binding w hclock hheld
    have hk := kept_eq get patch clock epsilon binding w hclock
    refine ⟨?_, ?_, ?_⟩
    · rw [issuedBy_syncBinding]
      unfold keptOf at hch
      rw [hch]
      rfl
    · show t ∉ (keptOf (controller get patch timeout clock epsilon) binding w).toList
      rw [hk]
      exact key _ _
    · simp only [patchOf, hk]
  · intro get patch clock epsilon req binding w hget hdel hclock hheld
    exact issuedBy_reconcile_of_changed _ req w binding hget hdel
      (changed get patch clock epsilon binding w hclock hheld)

/-- C4 at the task created at instant 0, with timeout 120 and `now` 130; for the binding
that holds this task and the task for `m2`, read by a cycle at instant 130, the one Patch
issued submits the binding with the task for `m2` only. -/
theorem expired_task_dropped_witness :
    (∀ (spec : ResourceBindingSpec) (status : List AggregatedStatusItem),
      taskExpired ∉ (assessEvictionTasks spec status 120 130).toList) ∧
    (∀ (get : Request → Except APIError ResourceBinding)
      (patch : PatchCall → Option APIError) (clock : Nat → Int) (epsilon : Int)
      (binding : ResourceBinding) (w : World) (p : PatchCall),
      clock w.clockReads = 130 →
      p ∈ issuedBy w.calls
        (syncBinding (controller get patch 120 clock epsilon) binding w).2.calls →
      taskExpired ∉ p.obj.Spec.GracefulEvictionTasks.toList) ∧
    (issuedBy World.init.calls
        (syncBinding (controllerOver (bindingWith (some [taskExpired, taskM2])))
          (bindingWith (some [taskExpired, taskM2])) World.init).2.calls =
        [patchOf (controllerOver (bindingWith (some [taskExpired, taskM2])))
          (bindingWith (some [taskExpired, taskM2])) World.init] ∧
      taskExpired ∉ (patchOf (controllerOver (bindingWith (some [taskExpired, taskM2])))
        (bindingWith (some [taskExpired, taskM2]))
        World.init).obj.Spec.GracefulEvictionTasks.toList ∧
      (patchOf (controllerOver (bindingWith (some [taskExpired, taskM2])))
        (bindingWith (some [taskExpired, taskM2])) World.init).obj =
        { bindingWith (some [taskExpired, taskM2]) with
          Spec := { (bindingWith (some [taskExpired, taskM2])).Spec with
            GracefulEvictionTasks :=
              assessEvictionTasks (bindingWith (some [taskExpired, taskM2])).Spec
                (bindingWith (some [taskExpired, taskM2])).Status.AggregatedStatus
                120 130 } }) ∧
    issuedBy World.init.calls
        (Reconcile (controllerOver (bindingWith (some [taskExpired, taskM2])))
          requestNginx World.init).2.calls =
        [patchOf (controllerOver (bindingWith (some [taskExpired, taskM2])))
          (bindingWith (some [taskExpired, taskM2])) World.init] :=
  ⟨(expired_task_dropped taskExpired 0 120 130 rfl (by decide)).1,
   (expired_task_dropped taskExpired 0 120 130 rfl (by decide)).2.1,
   (expired_task_dropped taskExpired 0 120 130 rfl (by decide)).2.2.1
      (fun _ => .ok (bindingWith (some [taskExpired, taskM2]))) (fun _ => none)
      (fun _ => 130) 1 (bindingWith (some [taskExpired, taskM2])) World.init rfl
      (by decide),
   (expired_task_dropped taskExpired 0 120 130 rfl (by decide)).2.2.2
      (fun _ => .ok (bindingWith (some [taskExpired, taskM2]))) (fun _ => none)
      (fun _ => 130) 1 requestNginx (bindingWith (some [taskExpired, taskM2])) World.init
      rfl (by decide) rfl (by decide)⟩

/-- The cycle of the witness of C4, evaluated: the object submitted holds the task for
`m2` only, and a store that holds the binding as read then holds it without the expired
task. -/
theorem expired_task_removed_example :
    issuedBy World.init.calls
      (Reconcile (controllerOver (bindingWith (some [taskExpired, taskM2])))
        requestNginx World.init).2.calls =
      [{ obj := bindingWith (some [taskM2]),
         patch := MergeFrom (bindingWith (some [taskExpired, taskM2])) }] ∧
    applyPatch (bindingWith (some [taskExpired, taskM2])) "2"
      (PatchCall.data { obj := bindingWith (some [taskM2]),
                        patch := MergeFrom (bindingWith (some [taskExpired, taskM2])) }) =
      .ok { (bindingWith (some [taskM2])) with
            Meta := { (bindingWith (some [taskM2])).Meta with
              ResourceVersion := "2", Generation := 2 } } :=
  ⟨by decide, rfl⟩

end GracefulEviction
